import Mathlib

/-!
Verification of the APUI-Scripts build orchestrators.

The repository contains two Python orchestration scripts:

* `src/v8_workspace.py` — drives a V8 checkout-and-build pipeline
  (depot_tools clone, gclient bootstrap, fetch, optional fork
  integration, gclient sync, GN generation, Ninja build);
* `src/cdp_frontend.py` — drives a Chrome DevTools frontend build with a
  try/finally workspace-cleanup controller.

Both are shallowly embedded below.  The embedding models:

* the filesystem as the list of existing paths (only the paths the
  orchestrators themselves create or test; external processes are not
  re-inspected within a run, matching the scripts, which never check a
  directory again after launching the command that would create it);
* the process-global environment (`os.environ`) as an association list,
  updated exactly where the scripts update it;
* external processes via a `World` oracle giving the result of the
  `n`-th launched process of a run, and a trace recording every launch
  together with the pipeline stage it belongs to;
* path joining with `"/"` (the separator choice is immaterial to every
  property considered here);
* `sys.exit(code)` as returning `code` together with the final state.
-/

namespace APUI

/-- Result of one external process launch: an exit code, or the
executable was not found (Python `FileNotFoundError`). -/
inductive CmdRes where
  | exit (code : Nat)
  | notFound
deriving DecidableEq, Repr

/-- Oracle for one run: the result of the `n`-th process launched. -/
abbrev World := Nat → CmdRes

/-- Mutable state threaded through a run: existing filesystem paths,
the process-global environment map, and the trace of launched commands
tagged with the stage they belong to. -/
structure St (σ : Type) where
  fs : List String
  env : List (String × String)
  trace : List (σ × List String)
deriving DecidableEq, Repr

/-- Lookup in the environment map (Python `os.environ[k]`, as `Option`). -/
def envGet (e : List (String × String)) (k : String) : Option String :=
  (e.find? (fun p => p.1 == k)).map (fun p => p.2)

/-- Update of the environment map (Python `os.environ[k] = v`): replace
the binding in place if present (environment maps bind each key once),
append otherwise. -/
def envSet (k v : String) : List (String × String) → List (String × String)
  | [] => [(k, v)]
  | p :: t => if p.1 == k then (k, v) :: t else p :: envSet k v t

/-- `os.pathsep`. -/
def pathSep (isWindows : Bool) : String := if isWindows then ";" else ":"

/-- The environment mutation both scripts perform after the depot_tools
stage (`os.environ["PATH"] = depot_tools_dir + os.pathsep + os.environ["PATH"]`,
plus `os.environ["DEPOT_TOOLS_WIN_TOOLCHAIN"] = "0"` on Windows). -/
def composeEnv (env : List (String × String)) (depotDir : String) (isWindows : Bool) :
    List (String × String) :=
  let env := envSet "PATH" (depotDir ++ pathSep isWindows ++ (envGet env "PATH").getD "") env
  if isWindows then envSet "DEPOT_TOOLS_WIN_TOOLCHAIN" "0" env else env

/-- Launch one external process: consult the world at the index given by
the number of processes launched so far, and record the command. -/
def launch {σ : Type} (w : World) (st : St σ) (stage : σ) (cmd : List String) :
    CmdRes × St σ :=
  (w st.trace.length, { st with trace := st.trace ++ [(stage, cmd)] })

/-- `os.makedirs(path)` guarded by `os.path.exists` (and
`os.makedirs(path, exist_ok=True)`): add the path if absent. -/
def makeDirs {σ : Type} (path : String) (st : St σ) : St σ :=
  if path ∈ st.fs then st else { st with fs := st.fs ++ [path] }

/-! ## Python `str.strip` -/

/-- `str.strip()` on the underlying character list: drop whitespace from
both ends. -/
def stripList (cs : List Char) : List Char :=
  ((cs.dropWhile Char.isWhitespace).reverse.dropWhile Char.isWhitespace).reverse

/-- Python `line.strip()`. -/
def pyStrip (s : String) : String := String.mk (stripList s.data)

/-- Prefix test on character lists. -/
def leadsWith : List Char → List Char → Bool
  | [], _ => true
  | _ :: _, [] => false
  | a :: as, b :: bs => a == b && leadsWith as bs

/-- Python `s.startswith(pre)`. -/
def strStarts (pre s : String) : Bool := leadsWith pre.data s.data

/-! ## `src/v8_workspace.py` -/

/-- `DEPOT_TOOLS_URL` (line 43 of `v8_workspace.py`). -/
def DEPOT_TOOLS_URL : String :=
  "https://chromium.googlesource.com/chromium/tools/depot_tools.git"

/-- `--build-type`: `static` or `dll`. -/
inductive BuildType where
  | static
  | dll
deriving DecidableEq, Repr

/-- `--config`: `release` or `debug`. -/
inductive BuildMode where
  | release
  | debug
deriving DecidableEq, Repr

def BuildMode.name : BuildMode → String
  | .release => "release"
  | .debug => "debug"

/-- The parsed CLI options of `v8_workspace.py` (lines 113–121). -/
structure V8Config where
  workspace : String
  buildType : BuildType
  config : BuildMode
  gnArgsFile : Option String
  v8ForkUrl : Option String
  v8ForkBranch : String
  msvc : Bool
  noRust : Bool
  noCustomCxx : Bool
deriving DecidableEq, Repr

/-- Stages of the V8 pipeline, used to tag launched commands.  The
remote-alias probe of the fork branch gets its own tag `forkProbe`,
since it is the one launch whose nonzero exit is an expected result
rather than a failure. -/
inductive V8Stage where
  | cloneDepot
  | bootstrapGclient
  | fetchV8
  | forkProbe
  | forkIntegration
  | defaultCheckout
  | gclientSync
  | gnGen
  | ninjaBuild
deriving DecidableEq, Repr

/-- `run_command` of `v8_workspace.py` (lines 45–81): launch, and on a
nonzero exit code call `sys.exit(returncode)`; on `FileNotFoundError`
call `sys.exit(1)`.  Errors carry the exit code and the state. -/
def v8RunCommand (w : World) (stage : V8Stage) (cmd : List String) (st : St V8Stage) :
    Except (Nat × St V8Stage) (St V8Stage) :=
  let p := launch w st stage cmd
  match p.1 with
  | CmdRes.exit 0 => Except.ok p.2
  | CmdRes.exit (n + 1) => Except.error (n + 1, p.2)
  | CmdRes.notFound => Except.error (1, p.2)

/-- One line of the override-file loop (lines 211–214): strip, then keep
the line unless it is empty or starts with `#`. -/
def keepLine (l : String) : Option String :=
  let t := pyStrip l
  if t ≠ "" ∧ ¬ strStarts "#" t then some t else none

/-- The tokens contributed by the override file's lines (lines 210–214). -/
def overrideArgs (lines : List String) : List String :=
  lines.filterMap keepLine

/-- The override-file step (lines 208–214): if a path was supplied and
exists, read it and collect the kept lines, printing the reading notice;
otherwise contribute nothing and print nothing.  Returns the appended
tokens together with the lines printed by this step. -/
def overrideStep (gnArgsFile : Option String) (fs : List String)
    (fileLines : String → List String) : List String × List String :=
  match gnArgsFile with
  | some p =>
      if p ≠ "" ∧ p ∈ fs then
        (overrideArgs (fileLines p), ["--- Reading custom GN args from " ++ p])
      else ([], [])
  | none => ([], [])

/-- The computed GN arguments (lines 184–206), in source order:
base flags, then `--no-rust`, then the link-mode pair, then the
platform/toolchain flags. -/
def computedGnArgs (cfg : V8Config) (isWindows : Bool) : List String :=
  [(match cfg.config with
      | BuildMode.debug => "is_debug=true"
      | BuildMode.release => "is_debug=false"),
   "target_cpu=\"\"x64\"\"",
   "v8_use_external_startup_data=false",
   "treat_warnings_as_errors=false"]
  ++ (if cfg.noRust then ["v8_enable_rust=false"] else [])
  ++ (match cfg.buildType with
      | BuildType.static => ["is_component_build=false", "v8_monolithic=true"]
      | BuildType.dll => ["is_component_build=true", "v8_monolithic=false"])
  ++ (if isWindows && cfg.msvc then ["is_clang=false", "v8_win_clang=false"]
      else if !isWindows then ["is_clang=true"] else [])

/-- The full GN argument sequence: computed arguments followed by the
override-file tokens (lines 184–214). -/
def buildGnArgs (cfg : V8Config) (isWindows : Bool) (fs : List String)
    (fileLines : String → List String) : List String :=
  computedGnArgs cfg isWindows ++ (overrideStep cfg.gnArgsFile fs fileLines).1

/-- The Ninja build target selected by the link mode (lines 195–200). -/
def buildTarget (cfg : V8Config) : String :=
  match cfg.buildType with
  | BuildType.static => "v8_monolithic"
  | BuildType.dll => "v8"

/-- `output_path = f"out.gn/x64.{args.config}"` (line 181). -/
def outputPath (cfg : V8Config) : String := "out.gn/x64." ++ cfg.config.name

/-- The GN command string built at line 216. -/
def gnCommandStr (cfg : V8Config) (isWindows : Bool) (fs : List String)
    (fileLines : String → List String) : String :=
  "gn gen " ++ outputPath cfg ++ " --args=\""
    ++ String.intercalate " " (buildGnArgs cfg isWindows fs fileLines) ++ "\""

/-- `git fetch fork` and `git checkout fork/<branch>` (lines 170–172). -/
def forkFetchCheckout (w : World) (branch : String) (st : St V8Stage) :
    Except (Nat × St V8Stage) (St V8Stage) :=
  match v8RunCommand w V8Stage.forkIntegration ["git", "fetch", "fork"] st with
  | Except.error e => Except.error e
  | Except.ok st =>
      v8RunCommand w V8Stage.forkIntegration ["git", "checkout", "fork/" ++ branch] st

/-- The remote-alias reconciliation of stage 3's fork branch
(lines 160–167): probe the `fork` remote with
`subprocess.check_output` — its `CalledProcessError` is caught, so a
nonzero probe result is non-fatal and selects the `remote add` branch; a
zero result selects `remote set-url`; a `FileNotFoundError` is not
caught and aborts with the generic code 1. -/
def forkReconcile (w : World) (url : String) (st : St V8Stage) :
    Except (Nat × St V8Stage) (St V8Stage) :=
  let p := launch w st V8Stage.forkProbe ["git", "remote", "get-url", "fork"]
  match p.1 with
  | CmdRes.notFound => Except.error (1, p.2)
  | CmdRes.exit 0 =>
      v8RunCommand w V8Stage.forkIntegration
        ["git", "remote", "set-url", "fork", url] p.2
  | CmdRes.exit (_ + 1) =>
      v8RunCommand w V8Stage.forkIntegration
        ["git", "remote", "add", "fork", url] p.2

/-- The custom-fork branch of stage 3 (lines 158–172): remote-alias
reconciliation, then fetch and check out the fork branch. -/
def forkStep (w : World) (url branch : String) (st : St V8Stage) :
    Except (Nat × St V8Stage) (St V8Stage) :=
  match forkReconcile w url st with
  | Except.error e => Except.error e
  | Except.ok st => forkFetchCheckout w branch st

/-- `main` of `v8_workspace.py` (lines 101–228).  Returns the process
exit status together with the final state.  The admin-privilege check
(lines 83–99) applies on Windows only. -/
def v8Main (w : World) (cfg : V8Config) (isWindows isAdmin : Bool)
    (fileLines : String → List String) (st0 : St V8Stage) : Nat × St V8Stage :=
  if isWindows && !isAdmin then (1, st0)
  else
  let base := cfg.workspace
  let st := makeDirs base st0
  let depot := base ++ "/depot_tools"
  match (if depot ∈ st.fs then Except.ok st
         else v8RunCommand w V8Stage.cloneDepot
           ["git", "clone", DEPOT_TOOLS_URL, depot] st) with
  | Except.error e => e
  | Except.ok st =>
  let st : St V8Stage := { st with env := composeEnv st.env depot isWindows }
  match v8RunCommand w V8Stage.bootstrapGclient ["gclient"] st with
  | Except.error e => e
  | Except.ok st =>
  let v8src := base ++ "/v8"
  match (if v8src ∈ st.fs then Except.ok st
         else v8RunCommand w V8Stage.fetchV8 ["fetch", "v8"] st) with
  | Except.error e => e
  | Except.ok st =>
  match (match cfg.v8ForkUrl with
         | some url => forkStep w url cfg.v8ForkBranch st
         | none => v8RunCommand w V8Stage.defaultCheckout
             ["git", "checkout", "12.1.285.27"] st) with
  | Except.error e => e
  | Except.ok st =>
  match v8RunCommand w V8Stage.gclientSync ["gclient", "sync"] st with
  | Except.error e => e
  | Except.ok st =>
  -- line 218: `subprocess.run(gn_command_str, check=True, ...)`; a failure
  -- raises an uncaught `CalledProcessError`, terminating with the generic code 1.
  let p := launch w st V8Stage.gnGen [gnCommandStr cfg isWindows st.fs fileLines]
  match p.1 with
  | CmdRes.exit 0 =>
      match v8RunCommand w V8Stage.ninjaBuild
          ["ninja", "-C", outputPath cfg, buildTarget cfg] p.2 with
      | Except.error e => e
      | Except.ok st => (0, st)
  | _ => (1, p.2)

/-- Initial state of a run: no processes launched yet. -/
def initSt {σ : Type} (fs : List String) (env : List (String × String)) : St σ :=
  { fs := fs, env := env, trace := [] }

/-! ## `src/cdp_frontend.py` -/

/-- Stages of the DevTools frontend pipeline. -/
inductive CdpStage where
  | prereqGit
  | prereqNpm
  | cloneDepot
  | envCheck
  | fetchFrontend
  | npmInstall
  | gnGen
  | ninjaBuild
deriving DecidableEq, Repr

/-- `run_command` of `cdp_frontend.py` (lines 14–53): launch, and raise
on a nonzero exit code or a missing executable.  Every raise is caught
by `main`'s blanket `except Exception`, so errors carry only the state. -/
def cdpRunCommand (w : World) (stage : CdpStage) (cmd : List String) (st : St CdpStage) :
    Except (St CdpStage) (St CdpStage) :=
  let p := launch w st stage cmd
  match p.1 with
  | CmdRes.exit 0 => Except.ok p.2
  | _ => Except.error p.2

/-- The executables probed by `check_environment` (lines 75–84), with
the Windows extension adjustment applied. -/
def envCheckNames (isWindows : Bool) : List String :=
  if isWindows then ["gclient.bat", "fetch.bat", "npm.cmd", "gn.bat", "autoninja.bat"]
  else ["gclient", "fetch", "npm", "gn", "autoninja"]

/-- The `check_environment` loop (lines 86–92): run `where`/`which` for
each name, raising on the first failure. -/
def cdpEnvCheck (w : World) (isWindows : Bool) :
    List String → St CdpStage → Except (St CdpStage) (St CdpStage)
  | [], st => Except.ok st
  | n :: ns, st =>
      match cdpRunCommand w CdpStage.envCheck
          [if isWindows then "where" else "which", n] st with
      | Except.error e => Except.error e
      | Except.ok st => cdpEnvCheck w isWindows ns st

/-- `shutil.rmtree(workspace_dir, ignore_errors=True)` (line 190): drop
the root and every path below it. -/
def removeTree (root : String) (fs : List String) : List String :=
  fs.filter (fun p => !(p == root || strStarts (root ++ "/") p))

/-- The `try` body of `cdp_frontend.py`'s `main` (lines 132–182):
workspace creation, prerequisite checks, depot_tools clone, environment
mutation and verification, devtools fetch, and the build commands. -/
def cdpBody (w : World) (ws : String) (isWindows : Bool) (st0 : St CdpStage) :
    Except (St CdpStage) (St CdpStage) :=
  let st := makeDirs ws st0
  match cdpRunCommand w CdpStage.prereqGit ["git", "--version"] st with
  | Except.error e => Except.error e
  | Except.ok st =>
  match cdpRunCommand w CdpStage.prereqNpm ["npm", "--version"] st with
  | Except.error e => Except.error e
  | Except.ok st =>
  let depot := ws ++ "/depot_tools"
  match (if depot ∈ st.fs then Except.ok st
         else cdpRunCommand w CdpStage.cloneDepot
           ["git", "clone", DEPOT_TOOLS_URL, depot] st) with
  | Except.error e => Except.error e
  | Except.ok st =>
  let st : St CdpStage := { st with env := composeEnv st.env depot isWindows }
  match cdpEnvCheck w isWindows (envCheckNames isWindows) st with
  | Except.error e => Except.error e
  | Except.ok st =>
  let devtools := ws ++ "/devtools"
  let st := makeDirs devtools st
  let frontend := devtools ++ "/devtools-frontend"
  match (if frontend ∈ st.fs then Except.ok st
         else cdpRunCommand w CdpStage.fetchFrontend ["fetch", "devtools-frontend"] st) with
  | Except.error e => Except.error e
  | Except.ok st =>
  match cdpRunCommand w CdpStage.npmInstall ["npm", "install"] st with
  | Except.error e => Except.error e
  | Except.ok st =>
  match cdpRunCommand w CdpStage.gnGen ["gn", "gen", "out/Default"] st with
  | Except.error e => Except.error e
  | Except.ok st =>
  cdpRunCommand w CdpStage.ninjaBuild ["autoninja", "-C", "out/Default"] st

/-- `main` of `cdp_frontend.py` (lines 111–192): on success fall off the
end with status 0; on any exception the `finally` block removes the
whole workspace tree and calls `sys.exit(1)`. -/
def cdpMain (w : World) (ws : String) (isWindows : Bool) (st0 : St CdpStage) :
    Nat × St CdpStage :=
  match cdpBody w ws isWindows st0 with
  | Except.ok st => (0, st)
  | Except.error st => (1, { st with fs := removeTree ws st.fs })

/-! ## Remote-alias reconciliation (stage 3's fork branch)

The probe/branch structure lives in `v8_workspace.py` lines 158–167 and
is embedded in `forkStep` above.  To settle what the reconciliation does
to the set of git remote aliases, the state kept by the external `git
remote` subcommands is modelled here: an association list from alias
name to URL, over which `add` fails on a duplicate name and `set-url`
updates in place — the documented behavior of the external tool. -/

/-- The remote aliases of a git checkout: name/URL pairs. -/
abbrev Remotes := List (String × String)

/-- URL of a named alias, if present. -/
def remoteLookup (rs : Remotes) (name : String) : Option String :=
  match rs with
  | [] => none
  | p :: t => if p.1 == name then some p.2 else remoteLookup t name

/-- `git remote add name url`: errors on a duplicate alias name. -/
def gitRemoteAdd (rs : Remotes) (name url : String) : Except String Remotes :=
  if (remoteLookup rs name).isSome then
    Except.error ("error: remote " ++ name ++ " already exists.")
  else Except.ok (rs ++ [(name, url)])

/-- `git remote set-url name url`: errors if the alias does not exist. -/
def gitRemoteSetUrl (rs : Remotes) (name url : String) : Except String Remotes :=
  if (remoteLookup rs name).isSome then
    Except.ok (rs.map (fun p => if p.1 == name then (name, url) else p))
  else Except.error ("error: No such remote " ++ name)

/-- The reconciliation of lines 160–167 acting on the remote-alias
state: probe for `fork` (the caught `check_output` call), and update the
URL if found, otherwise add the alias. -/
def reconcileFork (rs : Remotes) (url : String) : Except String Remotes :=
  match remoteLookup rs "fork" with
  | some _ => gitRemoteSetUrl rs "fork" url
  | none => gitRemoteAdd rs "fork" url

/-! ## Per-launch success predicates on traces -/

/-- Every launch recorded in the trace `t` satisfies `P` of its stage
tag and its world result. -/
def TraceOkL {σ : Type} (P : σ → CmdRes → Prop) (w : World) (t : List (σ × List String)) : Prop :=
  ∀ i e, t[i]? = some e → P e.1 (w i)

/-- Success of one launch of the V8 pipeline: the fork probe merely must
not raise `FileNotFoundError`; every other launch must exit 0. -/
def v8P (s : V8Stage) (r : CmdRes) : Prop :=
  if s = V8Stage.forkProbe then r ≠ CmdRes.notFound else r = CmdRes.exit 0

/-- Success of one launch of the DevTools pipeline: exit 0. -/
def cdpP (_ : CdpStage) (r : CmdRes) : Prop := r = CmdRes.exit 0

/-! ## Basic lemmas -/

theorem traceOkL_nil {σ : Type} (P : σ → CmdRes → Prop) (w : World) :
    TraceOkL P w [] := by
  intro i e h
  simp at h

theorem traceOkL_concat {σ : Type} (P : σ → CmdRes → Prop) (w : World)
    (t : List (σ × List String)) (x : σ × List String) :
    TraceOkL P w (t ++ [x]) ↔ (TraceOkL P w t ∧ P x.1 (w t.length)) := by
  constructor
  · intro h
    refine ⟨fun i e hi => h i e ?_, ?_⟩
    · rcases List.getElem?_eq_some_iff.mp hi with ⟨hlt, he⟩
      rw [List.getElem?_append_left (by omega)]
      exact hi
    · have := h t.length x ?_
      · exact this
      · rw [List.getElem?_append_right (le_refl _)]
        simp
  · rintro ⟨h1, h2⟩ i e hi
    by_cases hlt : i < t.length
    · exact h1 i e (by rwa [List.getElem?_append_left hlt] at hi)
    · rw [List.getElem?_append_right (by omega)] at hi
      have hlen : i < t.length + 1 := by
        rcases List.getElem?_eq_some_iff.mp hi with ⟨hl, _⟩
        simp at hl
        omega
      have : i = t.length := by omega
      subst this
      simp at hi
      subst hi
      exact h2

theorem not_traceOkL_concat {σ : Type} (P : σ → CmdRes → Prop) (w : World)
    (t : List (σ × List String)) (x : σ × List String) (hx : ¬ P x.1 (w t.length)) :
    ¬ TraceOkL P w (t ++ [x]) := by
  intro h
  exact hx ((traceOkL_concat P w t x).mp h).2

theorem not_traceOkL_append {σ : Type} (P : σ → CmdRes → Prop) (w : World)
    (t u : List (σ × List String)) (h : ¬ TraceOkL P w t) :
    ¬ TraceOkL P w (t ++ u) := by
  intro hall
  refine h (fun i e hi => hall i e ?_)
  rcases List.getElem?_eq_some_iff.mp hi with ⟨hlt, _⟩
  rw [List.getElem?_append_left (by simpa using hlt)]
  exact hi

theorem envGet_envSet_self (e : List (String × String)) (k v : String) :
    envGet (envSet k v e) k = some v := by
  induction e with
  | nil => simp [envSet, envGet]
  | cons p t ih =>
      by_cases h : p.1 = k
      · simp [envSet, envGet, h]
      · simp only [envSet]
        rw [if_neg (by simpa using h)]
        unfold envGet
        rw [List.find?_cons_of_neg _ (by simpa using h)]
        exact ih

theorem envGet_envSet_ne (e : List (String × String)) (k v k' : String) (hk : k' ≠ k) :
    envGet (envSet k v e) k' = envGet e k' := by
  induction e with
  | nil =>
      simp only [envSet, envGet]
      rw [List.find?_cons_of_neg _ (by simpa using Ne.symm hk)]
  | cons p t ih =>
      by_cases h : p.1 = k
      · simp only [envSet]
        rw [if_pos (by simpa using h)]
        unfold envGet
        rw [List.find?_cons_of_neg _ (by simpa using Ne.symm hk),
          List.find?_cons_of_neg _ (by simp [h]; exact Ne.symm hk)]
      · simp only [envSet]
        rw [if_neg (by simpa using h)]
        by_cases h2 : p.1 = k'
        · unfold envGet
          rw [List.find?_cons_of_pos _ (by simpa using h2),
            List.find?_cons_of_pos _ (by simpa using h2)]
        · unfold envGet
          rw [List.find?_cons_of_neg _ (by simpa using h2),
            List.find?_cons_of_neg _ (by simpa using h2)]
          exact ih

theorem not_traceOkL_of_entry {σ : Type} (P : σ → CmdRes → Prop) (w : World)
    (t : List (σ × List String)) (i : Nat) (e : σ × List String)
    (h : t[i]? = some e) (hne : ¬ P e.1 (w i)) : ¬ TraceOkL P w t :=
  fun hall => hne (hall i e h)

theorem getLastOfConcat {α : Type} (l : List α) (a : α) :
    (l ++ [a]).getLast? = some a := by
  rw [List.getLast?_append_of_ne_nil l (by simp)]
  simp

/-! ## Per-step lemmas for the V8 pipeline -/

theorem v8RunCommand_ok (w : World) (s : V8Stage) (c : List String) (st st' : St V8Stage)
    (h : v8RunCommand w s c st = Except.ok st') :
    st'.fs = st.fs ∧ st'.env = st.env ∧ st'.trace = st.trace ++ [(s, c)] ∧
      w st.trace.length = CmdRes.exit 0 := by
  simp only [v8RunCommand, launch] at h
  split at h
  · rename_i heq
    simp only [Except.ok.injEq] at h
    subst h
    exact ⟨rfl, rfl, rfl, heq⟩
  · simp at h
  · simp at h

theorem v8RunCommand_error (w : World) (s : V8Stage) (c : List String) (st : St V8Stage)
    (n : Nat) (st' : St V8Stage) (hs : s ≠ V8Stage.forkProbe)
    (h : v8RunCommand w s c st = Except.error (n, st')) :
    st'.fs = st.fs ∧ st'.env = st.env ∧ st'.trace = st.trace ++ [(s, c)] ∧ n ≠ 0 ∧
      (w st.trace.length = CmdRes.exit n ∨
        (n = 1 ∧ w st.trace.length = CmdRes.notFound)) ∧
      ¬ v8P s (w st.trace.length) := by
  simp only [v8RunCommand, launch] at h
  split at h
  · simp at h
  · rename_i m heq
    simp only [Except.error.injEq, Prod.mk.injEq] at h
    obtain ⟨hn, hst⟩ := h
    subst hn
    subst hst
    refine ⟨rfl, rfl, rfl, by omega, Or.inl heq, ?_⟩
    simp [v8P, hs, heq]
  · rename_i heq
    simp only [Except.error.injEq, Prod.mk.injEq] at h
    obtain ⟨hn, hst⟩ := h
    subst hn
    subst hst
    refine ⟨rfl, rfl, rfl, by omega, Or.inr ⟨rfl, heq⟩, ?_⟩
    simp [v8P, hs, heq]

/-- An ok `v8RunCommand` launch preserves the all-stages-ok predicate. -/
theorem v8RunCommand_ok_traceOk (w : World) (s : V8Stage) (c : List String)
    (st st' : St V8Stage) (h : v8RunCommand w s c st = Except.ok st')
    (hok : TraceOkL v8P w st.trace) : TraceOkL v8P w st'.trace := by
  obtain ⟨-, -, ht, hw⟩ := v8RunCommand_ok w s c st st' h
  rw [ht]
  refine (traceOkL_concat _ _ _ _).mpr ⟨hok, ?_⟩
  by_cases hp : s = V8Stage.forkProbe <;> simp [v8P, hp, hw]

/-- Data recorded on every fatal path of the V8 pipeline: the failing
launch is the last trace entry, it is not the GN-generation launch, and
the carried exit status is either the failing command's own exit code
or the generic 1 paired with a missing executable. -/
def v8FailInfo (w : World) (n : Nat) (st' : St V8Stage) : Prop :=
  ∃ e, st'.trace.getLast? = some e ∧ e.1 ≠ V8Stage.gnGen ∧
    (w (st'.trace.length - 1) = CmdRes.exit n ∨
      (n = 1 ∧ w (st'.trace.length - 1) = CmdRes.notFound))

theorem forkFetchCheckout_ok (w : World) (b : String) (st st' : St V8Stage)
    (h : forkFetchCheckout w b st = Except.ok st') :
    st'.fs = st.fs ∧ st'.env = st.env ∧
      (∃ ext, st'.trace = st.trace ++ ext ∧
        ∀ e ∈ ext, e.1 = V8Stage.forkProbe ∨ e.1 = V8Stage.forkIntegration) ∧
      (TraceOkL v8P w st.trace → TraceOkL v8P w st'.trace) := by
  unfold forkFetchCheckout at h
  split at h
  · simp at h
  · rename_i st1 heq1
    obtain ⟨hfs1, henv1, ht1, hw1⟩ := v8RunCommand_ok w _ _ st st1 heq1
    obtain ⟨hfs2, henv2, ht2, hw2⟩ := v8RunCommand_ok w _ _ st1 st' h
    refine ⟨by rw [hfs2, hfs1], by rw [henv2, henv1],
      ⟨[(V8Stage.forkIntegration, ["git", "fetch", "fork"]),
        (V8Stage.forkIntegration, ["git", "checkout", "fork/" ++ b])], ?_, ?_⟩, ?_⟩
    · rw [ht2, ht1, List.append_assoc]
      rfl
    · intro e he
      simp at he
      rcases he with he | he <;> simp [he]
    · intro hok
      exact v8RunCommand_ok_traceOk w _ _ st1 st' h
        (v8RunCommand_ok_traceOk w _ _ st st1 heq1 hok)

theorem forkFetchCheckout_error (w : World) (b : String) (st : St V8Stage)
    (n : Nat) (st' : St V8Stage)
    (h : forkFetchCheckout w b st = Except.error (n, st')) :
    st'.fs = st.fs ∧ st'.env = st.env ∧
      (∃ ext, st'.trace = st.trace ++ ext ∧
        ∀ e ∈ ext, e.1 = V8Stage.forkProbe ∨ e.1 = V8Stage.forkIntegration) ∧
      n ≠ 0 ∧ v8FailInfo w n st' ∧
      ¬ TraceOkL v8P w st'.trace := by
  unfold forkFetchCheckout at h
  split at h
  · rename_i e1 heq1
    simp only [Except.error.injEq] at h
    subst h
    obtain ⟨hfs, henv, ht, hn, hd, hnp⟩ :=
      v8RunCommand_error w _ _ st n st' (by simp) heq1
    refine ⟨hfs, henv, ⟨[(V8Stage.forkIntegration, ["git", "fetch", "fork"])],
      ht, by simp⟩, hn, ?_, ?_⟩
    · refine ⟨(V8Stage.forkIntegration, ["git", "fetch", "fork"]), ?_, by simp, ?_⟩
      · rw [ht]
        exact getLastOfConcat _ _
      · rw [ht]
        simpa using hd
    · refine not_traceOkL_of_entry _ w st'.trace st.trace.length
        (V8Stage.forkIntegration, ["git", "fetch", "fork"]) ?_ hnp
      rw [ht]
      rw [List.getElem?_append_right (le_refl _)]
      simp
  · rename_i st1 heq1
    obtain ⟨hfs1, henv1, ht1, hw1⟩ := v8RunCommand_ok w _ _ st st1 heq1
    obtain ⟨hfs2, henv2, ht2, hn, hd, hnp⟩ :=
      v8RunCommand_error w _ _ st1 n st' (by simp) h
    refine ⟨by rw [hfs2, hfs1], by rw [henv2, henv1],
      ⟨[(V8Stage.forkIntegration, ["git", "fetch", "fork"]),
        (V8Stage.forkIntegration, ["git", "checkout", "fork/" ++ b])], ?_, ?_⟩,
      hn, ?_, ?_⟩
    · rw [ht2, ht1, List.append_assoc]
      rfl
    · intro e he
      simp at he
      rcases he with he | he <;> simp [he]
    · refine ⟨(V8Stage.forkIntegration, ["git", "checkout", "fork/" ++ b]),
        ?_, by simp, ?_⟩
      · rw [ht2]
        exact getLastOfConcat _ _
      · rw [ht2, ht1]
        rw [ht1] at hd
        simpa [List.length_append] using hd
    · refine not_traceOkL_of_entry _ w st'.trace st1.trace.length
        (V8Stage.forkIntegration, ["git", "checkout", "fork/" ++ b]) ?_ hnp
      rw [ht2]
      rw [List.getElem?_append_right (le_refl _)]
      simp

theorem forkReconcile_ok (w : World) (url : String) (st st' : St V8Stage)
    (h : forkReconcile w url st = Except.ok st') :
    st'.fs = st.fs ∧ st'.env = st.env ∧
      (∃ ext, st'.trace = st.trace ++ ext ∧
        ∀ e ∈ ext, e.1 = V8Stage.forkProbe ∨ e.1 = V8Stage.forkIntegration) ∧
      (TraceOkL v8P w st.trace → TraceOkL v8P w st'.trace) := by
  simp only [forkReconcile, launch] at h
  have hprobe : ∀ k, w st.trace.length = CmdRes.exit k →
      TraceOkL v8P w st.trace →
      TraceOkL v8P w (st.trace ++ [(V8Stage.forkProbe, ["git", "remote", "get-url", "fork"])]) := by
    intro k hk hok
    refine (traceOkL_concat _ _ _ _).mpr ⟨hok, ?_⟩
    simp [v8P, hk]
  split at h
  · simp at h
  · rename_i heq
    obtain ⟨hfs, henv, ht, hw⟩ := v8RunCommand_ok w _ _ _ st' h
    refine ⟨by simpa using hfs, by simpa using henv,
      ⟨[(V8Stage.forkProbe, ["git", "remote", "get-url", "fork"]),
        (V8Stage.forkIntegration, ["git", "remote", "set-url", "fork", url])], ?_, ?_⟩, ?_⟩
    · rw [ht]
      simp
    · intro e he
      simp at he
      rcases he with he | he <;> simp [he]
    · intro hok
      exact v8RunCommand_ok_traceOk w _ _ _ st' h (hprobe 0 heq hok)
  · rename_i k heq
    obtain ⟨hfs, henv, ht, hw⟩ := v8RunCommand_ok w _ _ _ st' h
    refine ⟨by simpa using hfs, by simpa using henv,
      ⟨[(V8Stage.forkProbe, ["git", "remote", "get-url", "fork"]),
        (V8Stage.forkIntegration, ["git", "remote", "add", "fork", url])], ?_, ?_⟩, ?_⟩
    · rw [ht]
      simp
    · intro e he
      simp at he
      rcases he with he | he <;> simp [he]
    · intro hok
      exact v8RunCommand_ok_traceOk w _ _ _ st' h (hprobe (k + 1) heq hok)

theorem forkReconcile_error (w : World) (url : String) (st : St V8Stage)
    (n : Nat) (st' : St V8Stage)
    (h : forkReconcile w url st = Except.error (n, st')) :
    st'.fs = st.fs ∧ st'.env = st.env ∧
      (∃ ext, st'.trace = st.trace ++ ext ∧
        ∀ e ∈ ext, e.1 = V8Stage.forkProbe ∨ e.1 = V8Stage.forkIntegration) ∧
      n ≠ 0 ∧ v8FailInfo w n st' ∧
      ¬ TraceOkL v8P w st'.trace := by
  simp only [forkReconcile, launch] at h
  split at h
  · rename_i heq
    simp only [Except.error.injEq, Prod.mk.injEq] at h
    obtain ⟨hn, hst⟩ := h
    subst hn
    subst hst
    refine ⟨rfl, rfl,
      ⟨[(V8Stage.forkProbe, ["git", "remote", "get-url", "fork"])], rfl, by simp⟩,
      by omega,
      ⟨(V8Stage.forkProbe, ["git", "remote", "get-url", "fork"]),
        getLastOfConcat _ _, by simp, Or.inr ⟨rfl, by simpa using heq⟩⟩, ?_⟩
    refine not_traceOkL_of_entry _ w _ st.trace.length
      (V8Stage.forkProbe, ["git", "remote", "get-url", "fork"]) ?_ ?_
    · rw [List.getElem?_append_right (le_refl _)]
      simp
    · simp [v8P, heq]
  · rename_i heq
    obtain ⟨hfs, henv, ht, hn, hd, hnp⟩ := v8RunCommand_error w _ _ _ n st' (by simp) h
    refine ⟨by simpa using hfs, by simpa using henv,
      ⟨[(V8Stage.forkProbe, ["git", "remote", "get-url", "fork"]),
        (V8Stage.forkIntegration, ["git", "remote", "set-url", "fork", url])],
        by rw [ht]; simp, ?_⟩, hn, ?_, ?_⟩
    · intro e he
      simp at he
      rcases he with he | he <;> simp [he]
    · refine ⟨(V8Stage.forkIntegration, ["git", "remote", "set-url", "fork", url]),
        ?_, by simp, ?_⟩
      · rw [ht]
        exact getLastOfConcat _ _
      · rw [ht]
        simpa using hd
    · refine not_traceOkL_of_entry _ w st'.trace (st.trace.length + 1)
        (V8Stage.forkIntegration, ["git", "remote", "set-url", "fork", url]) ?_ ?_
      · rw [ht]
        rw [List.getElem?_append_right (by simp)]
        simp
      · simpa using hnp
  · rename_i k heq
    obtain ⟨hfs, henv, ht, hn, hd, hnp⟩ := v8RunCommand_error w _ _ _ n st' (by simp) h
    refine ⟨by simpa using hfs, by simpa using henv,
      ⟨[(V8Stage.forkProbe, ["git", "remote", "get-url", "fork"]),
        (V8Stage.forkIntegration, ["git", "remote", "add", "fork", url])],
        by rw [ht]; simp, ?_⟩, hn, ?_, ?_⟩
    · intro e he
      simp at he
      rcases he with he | he <;> simp [he]
    · refine ⟨(V8Stage.forkIntegration, ["git", "remote", "add", "fork", url]),
        ?_, by simp, ?_⟩
      · rw [ht]
        exact getLastOfConcat _ _
      · rw [ht]
        simpa using hd
    · refine not_traceOkL_of_entry _ w st'.trace (st.trace.length + 1)
        (V8Stage.forkIntegration, ["git", "remote", "add", "fork", url]) ?_ ?_
      · rw [ht]
        rw [List.getElem?_append_right (by simp)]
        simp
      · simpa using hnp

theorem forkStep_ok (w : World) (url b : String) (st st' : St V8Stage)
    (h : forkStep w url b st = Except.ok st') :
    st'.fs = st.fs ∧ st'.env = st.env ∧
      (∃ ext, st'.trace = st.trace ++ ext ∧
        ∀ e ∈ ext, e.1 = V8Stage.forkProbe ∨ e.1 = V8Stage.forkIntegration) ∧
      (TraceOkL v8P w st.trace → TraceOkL v8P w st'.trace) := by
  unfold forkStep at h
  split at h
  · simp at h
  · rename_i st1 heq1
    obtain ⟨hfs1, henv1, ⟨ext1, ht1, hext1⟩, hp1⟩ := forkReconcile_ok w url st st1 heq1
    obtain ⟨hfs2, henv2, ⟨ext2, ht2, hext2⟩, hp2⟩ := forkFetchCheckout_ok w b st1 st' h
    refine ⟨by rw [hfs2, hfs1], by rw [henv2, henv1],
      ⟨ext1 ++ ext2, by rw [ht2, ht1, List.append_assoc], ?_⟩, fun hok => hp2 (hp1 hok)⟩
    intro e he
    rcases List.mem_append.mp he with he | he
    · exact hext1 e he
    · exact hext2 e he

theorem forkStep_error (w : World) (url b : String) (st : St V8Stage)
    (n : Nat) (st' : St V8Stage)
    (h : forkStep w url b st = Except.error (n, st')) :
    st'.fs = st.fs ∧ st'.env = st.env ∧
      (∃ ext, st'.trace = st.trace ++ ext ∧
        ∀ e ∈ ext, e.1 = V8Stage.forkProbe ∨ e.1 = V8Stage.forkIntegration) ∧
      n ≠ 0 ∧ v8FailInfo w n st' ∧
      ¬ TraceOkL v8P w st'.trace := by
  unfold forkStep at h
  split at h
  · rename_i e1 heq1
    simp only [Except.error.injEq] at h
    subst h
    exact forkReconcile_error w url st n st' heq1
  · rename_i st1 heq1
    obtain ⟨hfs1, henv1, ⟨ext1, ht1, hext1⟩, hp1⟩ := forkReconcile_ok w url st st1 heq1
    obtain ⟨hfs2, henv2, ⟨ext2, ht2, hext2⟩, hn, hd, hnp⟩ :=
      forkFetchCheckout_error w b st1 n st' h
    refine ⟨by rw [hfs2, hfs1], by rw [henv2, henv1],
      ⟨ext1 ++ ext2, by rw [ht2, ht1, List.append_assoc], ?_⟩, hn, hd, hnp⟩
    intro e he
    rcases List.mem_append.mp he with he | he
    · exact hext1 e he
    · exact hext2 e he

theorem makeDirs_trace {σ : Type} (p : String) (st : St σ) :
    (makeDirs p st).trace = st.trace := by
  unfold makeDirs
  split <;> rfl

theorem makeDirs_env {σ : Type} (p : String) (st : St σ) :
    (makeDirs p st).env = st.env := by
  unfold makeDirs
  split <;> rfl

theorem makeDirs_fs_or {σ : Type} (p : String) (st : St σ) :
    (makeDirs p st).fs = st.fs ∨ (makeDirs p st).fs = st.fs ++ [p] := by
  unfold makeDirs
  split
  · exact Or.inl rfl
  · exact Or.inr rfl

theorem makeDirs_fs_sub {σ : Type} (p : String) (st : St σ) :
    st.fs ⊆ (makeDirs p st).fs := by
  rcases makeDirs_fs_or p st with h | h <;> rw [h]
  · exact fun a ha => ha
  · exact fun a ha => List.mem_append.mpr (Or.inl ha)

theorem makeDirs_mem {σ : Type} (p : String) (st : St σ) :
    p ∈ (makeDirs p st).fs := by
  unfold makeDirs
  split
  · assumption
  · simp

/-! ## The V8 pipeline walk -/

/-- What each stage tag is allowed to launch in a run of the V8 pipeline
starting with filesystem `fs0`; marker-guarded stages additionally
record that their marker was absent at the start. -/
def v8Allowed (cfg : V8Config) (fs0 : List String) (e : V8Stage × List String) : Prop :=
  match e.1 with
  | V8Stage.cloneDepot =>
      e.2 = ["git", "clone", DEPOT_TOOLS_URL, cfg.workspace ++ "/depot_tools"] ∧
        (cfg.workspace ++ "/depot_tools") ∉ fs0
  | V8Stage.bootstrapGclient => e.2 = ["gclient"]
  | V8Stage.fetchV8 => e.2 = ["fetch", "v8"] ∧ (cfg.workspace ++ "/v8") ∉ fs0
  | V8Stage.forkProbe => cfg.v8ForkUrl ≠ none
  | V8Stage.forkIntegration => cfg.v8ForkUrl ≠ none
  | V8Stage.defaultCheckout =>
      cfg.v8ForkUrl = none ∧ e.2 = ["git", "checkout", "12.1.285.27"]
  | V8Stage.gclientSync => e.2 = ["gclient", "sync"]
  | V8Stage.gnGen => True
  | V8Stage.ninjaBuild => e.2 = ["ninja", "-C", outputPath cfg, buildTarget cfg]

/-- Invariant maintained along the success path of a V8 run (the
environment is tracked separately, since it changes exactly once). -/
def v8Inv (cfg : V8Config) (fs0 : List String) (w : World) (st : St V8Stage) : Prop :=
  (∀ e ∈ st.trace, v8Allowed cfg fs0 e) ∧
  (st.fs = fs0 ∨ st.fs = fs0 ++ [cfg.workspace]) ∧
  TraceOkL v8P w st.trace

/-- Everything the claims need to know about the result of a V8 run. -/
def v8Final (cfg : V8Config) (fs0 : List String) (env0 : List (String × String))
    (win ad : Bool) (w : World) (r : Nat × St V8Stage) : Prop :=
  (∀ e ∈ r.2.trace, v8Allowed cfg fs0 e) ∧
  (r.2.env = env0 ∨ r.2.env = composeEnv env0 (cfg.workspace ++ "/depot_tools") win) ∧
  (r.2.fs = fs0 ∨ r.2.fs = fs0 ++ [cfg.workspace]) ∧
  (r.1 = 0 ↔ ((win = true → ad = true) ∧ TraceOkL v8P w r.2.trace)) ∧
  (r.1 ≠ 0 → ∀ e, r.2.trace.getLast? = some e →
    ((e.1 ≠ V8Stage.gnGen → ∀ k,
        w (r.2.trace.length - 1) = CmdRes.exit (k + 1) → r.1 = k + 1) ∧
     (w (r.2.trace.length - 1) = CmdRes.notFound → r.1 = 1) ∧
     (e.1 = V8Stage.gnGen → r.1 = 1)))

theorem v8Step_ok_inv (cfg : V8Config) (fs0 : List String) (w : World) (s : V8Stage)
    (c : List String) (st st' : St V8Stage)
    (hinv : v8Inv cfg fs0 w st) (ha : v8Allowed cfg fs0 (s, c))
    (h : v8RunCommand w s c st = Except.ok st') :
    v8Inv cfg fs0 w st' := by
  obtain ⟨hall, hfs, hok⟩ := hinv
  obtain ⟨hfs', henv', ht', hw'⟩ := v8RunCommand_ok w s c st st' h
  refine ⟨?_, by rw [hfs']; exact hfs,
    v8RunCommand_ok_traceOk w s c st st' h hok⟩
  rw [ht']
  intro e he
  rcases List.mem_append.mp he with he | he
  · exact hall e he
  · simp at he
    subst he
    exact ha

theorem v8Step_error_final (cfg : V8Config) (fs0 : List String)
    (env0 : List (String × String)) (win ad : Bool) (w : World) (s : V8Stage)
    (c : List String) (st st' : St V8Stage) (n : Nat) (hs : s ≠ V8Stage.forkProbe)
    (hsg : s ≠ V8Stage.gnGen)
    (hinv : v8Inv cfg fs0 w st)
    (henv : st.env = env0 ∨ st.env = composeEnv env0 (cfg.workspace ++ "/depot_tools") win)
    (ha : v8Allowed cfg fs0 (s, c))
    (h : v8RunCommand w s c st = Except.error (n, st')) :
    v8Final cfg fs0 env0 win ad w (n, st') := by
  obtain ⟨hall, hfs, hok⟩ := hinv
  obtain ⟨hfs', henv', ht', hn, hd, hnp⟩ := v8RunCommand_error w s c st n st' hs h
  have hnot : ¬ TraceOkL v8P w st'.trace := by
    refine not_traceOkL_of_entry _ w st'.trace st.trace.length (s, c) ?_ hnp
    rw [ht']
    rw [List.getElem?_append_right (le_refl _)]
    simp
  refine ⟨?_, by rw [henv']; exact henv, by rw [hfs']; exact hfs, ?_, ?_⟩
  · rw [ht']
    intro e he
    rcases List.mem_append.mp he with he | he
    · exact hall e he
    · simp at he
      subst he
      exact ha
  · constructor
    · intro h0
      exact absurd h0 hn
    · rintro ⟨-, htr⟩
      exact absurd htr hnot
  · intro _ e hlast
    rw [ht'] at hlast
    rw [getLastOfConcat] at hlast
    injection hlast with he
    subst he
    refine ⟨?_, ?_, ?_⟩
    · intro _ k hk
      rw [ht'] at hk
      simp at hk
      rcases hd with hd | hd
      · rw [hk] at hd
        injection hd with hkn
        show n = k + 1
        omega
      · rw [hk] at hd
        exact absurd hd.2 (by simp)
    · intro hnf
      rw [ht'] at hnf
      simp at hnf
      rcases hd with hd | hd
      · rw [hnf] at hd
        exact absurd hd (by simp)
      · show n = 1
        exact hd.1
    · intro hg
      exact absurd hg hsg

theorem v8Fork_ok_inv (cfg : V8Config) (fs0 : List String) (w : World) (url b : String)
    (st st' : St V8Stage) (hurl : cfg.v8ForkUrl ≠ none)
    (hinv : v8Inv cfg fs0 w st)
    (h : forkStep w url b st = Except.ok st') :
    v8Inv cfg fs0 w st' := by
  obtain ⟨hall, hfs, hok⟩ := hinv
  obtain ⟨hfs', henv', ⟨ext, ht', hext⟩, hp⟩ := forkStep_ok w url b st st' h
  refine ⟨?_, by rw [hfs']; exact hfs, hp hok⟩
  rw [ht']
  intro e he
  rcases List.mem_append.mp he with he | he
  · exact hall e he
  · rcases hext e he with hh | hh <;> simp [v8Allowed, hh, hurl]

theorem v8Fork_error_final (cfg : V8Config) (fs0 : List String)
    (env0 : List (String × String)) (win ad : Bool) (w : World) (url b : String)
    (st st' : St V8Stage) (n : Nat) (hurl : cfg.v8ForkUrl ≠ none)
    (hinv : v8Inv cfg fs0 w st)
    (henv : st.env = env0 ∨ st.env = composeEnv env0 (cfg.workspace ++ "/depot_tools") win)
    (h : forkStep w url b st = Except.error (n, st')) :
    v8Final cfg fs0 env0 win ad w (n, st') := by
  obtain ⟨hall, hfs, hok⟩ := hinv
  obtain ⟨hfs', henv', ⟨ext, ht', hext⟩, hn, hfi, hnot⟩ := forkStep_error w url b st n st' h
  refine ⟨?_, by rw [henv']; exact henv, by rw [hfs']; exact hfs, ?_, ?_⟩
  · rw [ht']
    intro e he
    rcases List.mem_append.mp he with he | he
    · exact hall e he
    · rcases hext e he with hh | hh <;> simp [v8Allowed, hh, hurl]
  · constructor
    · intro h0
      exact absurd h0 hn
    · rintro ⟨-, htr⟩
      exact absurd htr hnot
  · intro _ e hlast
    obtain ⟨e0, hl0, hg0, hd0⟩ := hfi
    rw [hl0] at hlast
    injection hlast with he
    subst he
    refine ⟨?_, ?_, ?_⟩
    · intro _ k hk
      rcases hd0 with hd0 | hd0
      · rw [hk] at hd0
        injection hd0 with hkn
        show n = k + 1
        omega
      · rw [hk] at hd0
        exact absurd hd0.2 (by simp)
    · intro hnf
      rcases hd0 with hd0 | hd0
      · rw [hnf] at hd0
        exact absurd hd0 (by simp)
      · show n = 1
        exact hd0.1
    · intro hg
      exact absurd hg hg0

/-- Master characterisation of one run of `v8Main` from a fresh initial
state: trace shape, environment shape, filesystem shape, and the exit
code discipline. -/
theorem v8Main_run (w : World) (cfg : V8Config) (win ad : Bool)
    (fl : String → List String) (fs : List String) (env : List (String × String))
    (r : Nat × St V8Stage) (hr : v8Main w cfg win ad fl (initSt fs env) = r) :
    v8Final cfg fs env win ad w r := by
  unfold v8Main at hr
  by_cases hadmin : (win && !ad) = true
  · rw [if_pos hadmin] at hr
    subst hr
    refine ⟨?_, Or.inl rfl, Or.inl rfl, ?_, ?_⟩
    · intro e he
      simp [initSt] at he
    · simp only [Bool.and_eq_true, Bool.not_eq_true'] at hadmin
      constructor
      · intro h0
        exact absurd h0 (by simp)
      · rintro ⟨hwin, -⟩
        rw [hadmin.2] at hwin
        exact absurd (hwin hadmin.1) (by simp)
    · intro _ e hlast
      simp [initSt] at hlast
  · rw [if_neg hadmin] at hr
    simp only at hr
    have hwinad : win = true → ad = true := by
      intro hw
      by_contra hna
      exact hadmin (by simp [hw, Bool.not_eq_true] at hna ⊢; simp [hna])
    have hinv1 : v8Inv cfg fs w (makeDirs cfg.workspace (initSt fs env)) := by
      refine ⟨?_, ?_, ?_⟩
      · rw [makeDirs_trace]
        intro e he
        simp [initSt] at he
      · simpa [initSt] using makeDirs_fs_or cfg.workspace (initSt fs env)
      · rw [makeDirs_trace]
        exact traceOkL_nil _ _
    have henv1 : (makeDirs cfg.workspace (initSt fs env : St V8Stage)).env = env := by
      rw [makeDirs_env]
      rfl
    split at hr
    · -- depot_tools clone failed
      rename_i e1 heq1
      obtain ⟨n, st'⟩ := e1
      subst hr
      split at heq1
      · simp at heq1
      · rename_i hmem
        have ha : v8Allowed cfg fs (V8Stage.cloneDepot,
            ["git", "clone", DEPOT_TOOLS_URL, cfg.workspace ++ "/depot_tools"]) := by
          refine ⟨rfl, fun hin => hmem ?_⟩
          exact makeDirs_fs_sub cfg.workspace (initSt fs env) (by simpa [initSt] using hin)
        exact v8Step_error_final cfg fs env win ad w _ _ _ st' n (by simp) (by simp)
          hinv1 (Or.inl henv1) ha heq1
    · -- depot_tools stage passed (cloned or skipped)
      rename_i st2 heq1
      have hinv2 : v8Inv cfg fs w st2 := by
        split at heq1
        · simp only [Except.ok.injEq] at heq1
          subst heq1
          exact hinv1
        · rename_i hmem
          have ha : v8Allowed cfg fs (V8Stage.cloneDepot,
              ["git", "clone", DEPOT_TOOLS_URL, cfg.workspace ++ "/depot_tools"]) := by
            refine ⟨rfl, fun hin => hmem ?_⟩
            exact makeDirs_fs_sub cfg.workspace (initSt fs env) (by simpa [initSt] using hin)
          exact v8Step_ok_inv cfg fs w _ _ _ st2 hinv1 ha heq1
      have henv2 : st2.env = env := by
        split at heq1
        · simp only [Except.ok.injEq] at heq1
          subst heq1
          exact henv1
        · rw [(v8RunCommand_ok w _ _ _ st2 heq1).2.1, henv1]
      -- compose the environment (line 142-144)
      set st3 : St V8Stage := { st2 with
        env := composeEnv st2.env (cfg.workspace ++ "/depot_tools") win } with hst3
      have hinv3 : v8Inv cfg fs w st3 := by
        obtain ⟨hall, hfs, hok⟩ := hinv2
        exact ⟨hall, hfs, hok⟩
      have henv3 : st3.env = composeEnv env (cfg.workspace ++ "/depot_tools") win := by
        rw [hst3]
        simp [henv2]
      split at hr
      · -- gclient bootstrap failed
        rename_i e1 heq2
        obtain ⟨n, st'⟩ := e1
        subst hr
        exact v8Step_error_final cfg fs env win ad w _ _ _ st' n (by simp) (by simp)
          hinv3 (Or.inr henv3) (by simp [v8Allowed]) heq2
      · rename_i st4 heq2
        have hinv4 : v8Inv cfg fs w st4 :=
          v8Step_ok_inv cfg fs w _ _ _ st4 hinv3 (by simp [v8Allowed]) heq2
        have henv4 : st4.env = composeEnv env (cfg.workspace ++ "/depot_tools") win := by
          rw [(v8RunCommand_ok w _ _ _ st4 heq2).2.1, henv3]
        split at hr
        · -- fetch v8 failed
          rename_i e1 heq3
          obtain ⟨n, st'⟩ := e1
          subst hr
          split at heq3
          · simp at heq3
          · rename_i hmem
            have ha : v8Allowed cfg fs (V8Stage.fetchV8, ["fetch", "v8"]) := by
              refine ⟨rfl, fun hin => hmem ?_⟩
              rcases hinv4.2.1 with hh | hh <;> rw [hh]
              · exact hin
              · exact List.mem_append.mpr (Or.inl hin)
            exact v8Step_error_final cfg fs env win ad w _ _ _ st' n (by simp) (by simp)
              hinv4 (Or.inr henv4) ha heq3
        · rename_i st5 heq3
          have hinv5 : v8Inv cfg fs w st5 := by
            split at heq3
            · simp only [Except.ok.injEq] at heq3
              subst heq3
              exact hinv4
            · rename_i hmem
              have ha : v8Allowed cfg fs (V8Stage.fetchV8, ["fetch", "v8"]) := by
                refine ⟨rfl, fun hin => hmem ?_⟩
                rcases hinv4.2.1 with hh | hh <;> rw [hh]
                · exact hin
                · exact List.mem_append.mpr (Or.inl hin)
              exact v8Step_ok_inv cfg fs w _ _ _ st5 hinv4 ha heq3
          have henv5 : st5.env = composeEnv env (cfg.workspace ++ "/depot_tools") win := by
            split at heq3
            · simp only [Except.ok.injEq] at heq3
              subst heq3
              exact henv4
            · rw [(v8RunCommand_ok w _ _ _ st5 heq3).2.1, henv4]
          split at hr
          · -- fork / default checkout failed
            rename_i e1 heq4
            obtain ⟨n, st'⟩ := e1
            subst hr
            split at heq4
            · rename_i url hurl
              exact v8Fork_error_final cfg fs env win ad w url _ _ st' n
                (by simp [hurl]) hinv5 (Or.inr henv5) heq4
            · rename_i hurl
              exact v8Step_error_final cfg fs env win ad w _ _ _ st' n (by simp) (by simp)
                hinv5 (Or.inr henv5) (by simp [v8Allowed, hurl]) heq4
          · rename_i st6 heq4
            have hinv6 : v8Inv cfg fs w st6 := by
              split at heq4
              · rename_i url hurl
                exact v8Fork_ok_inv cfg fs w url _ _ st6 (by simp [hurl]) hinv5 heq4
              · rename_i hurl
                exact v8Step_ok_inv cfg fs w _ _ _ st6 hinv5
                  (by simp [v8Allowed, hurl]) heq4
            have henv6 : st6.env = composeEnv env (cfg.workspace ++ "/depot_tools") win := by
              split at heq4
              · rw [(forkStep_ok w _ _ _ st6 heq4).2.1, henv5]
              · rw [(v8RunCommand_ok w _ _ _ st6 heq4).2.1, henv5]
            split at hr
            · -- gclient sync failed
              rename_i e1 heq5
              obtain ⟨n, st'⟩ := e1
              subst hr
              exact v8Step_error_final cfg fs env win ad w _ _ _ st' n (by simp) (by simp)
                hinv6 (Or.inr henv6) (by simp [v8Allowed]) heq5
            · rename_i st7 heq5
              have hinv7 : v8Inv cfg fs w st7 :=
                v8Step_ok_inv cfg fs w _ _ _ st7 hinv6 (by simp [v8Allowed]) heq5
              have henv7 : st7.env = composeEnv env (cfg.workspace ++ "/depot_tools") win := by
                rw [(v8RunCommand_ok w _ _ _ st7 heq5).2.1, henv6]
              -- GN generation (raw subprocess.run)
              simp only [launch] at hr
              split at hr
              · -- gn succeeded; ninja step
                rename_i heqgn
                set st8 : St V8Stage := { st7 with trace := st7.trace ++
                  [(V8Stage.gnGen, [gnCommandStr cfg win st7.fs fl])] } with hst8
                have hinv8 : v8Inv cfg fs w st8 := by
                  obtain ⟨hall, hfs, hok⟩ := hinv7
                  refine ⟨?_, hfs, ?_⟩
                  · rw [hst8]
                    intro e he
                    rcases List.mem_append.mp he with he | he
                    · exact hall e he
                    · simp at he
                      subst he
                      simp [v8Allowed]
                  · rw [hst8]
                    refine (traceOkL_concat _ _ _ _).mpr ⟨hok, ?_⟩
                    simpa [v8P] using heqgn
                have henv8 : st8.env = composeEnv env (cfg.workspace ++ "/depot_tools") win := by
                  rw [hst8]
                  simpa using henv7
                split at hr
                · -- ninja failed
                  rename_i e1 heq6
                  obtain ⟨n, st'⟩ := e1
                  subst hr
                  exact v8Step_error_final cfg fs env win ad w _ _ _ st' n (by simp) (by simp)
                    hinv8 (Or.inr henv8) (by simp [v8Allowed]) heq6
                · -- full success
                  rename_i st9 heq6
                  have hinv9 : v8Inv cfg fs w st9 :=
                    v8Step_ok_inv cfg fs w _ _ _ st9 hinv8 (by simp [v8Allowed]) heq6
                  have henv9 : st9.env = composeEnv env (cfg.workspace ++ "/depot_tools") win := by
                    rw [(v8RunCommand_ok w _ _ _ st9 heq6).2.1, henv8]
                  subst hr
                  exact ⟨hinv9.1, Or.inr henv9, hinv9.2.1,
                    by simp only [true_iff]; exact ⟨hwinad, hinv9.2.2⟩,
                    by intro h0; exact absurd rfl h0⟩
              · -- gn failed: uncaught CalledProcessError, exit 1
                rename_i heqgn
                subst hr
                refine ⟨?_, Or.inr ?_, ?_, ?_, ?_⟩
                · intro e he
                  simp only [List.mem_append] at he
                  rcases he with he | he
                  · exact hinv7.1 e he
                  · simp at he
                    subst he
                    simp [v8Allowed]
                · simpa using henv7
                · simpa using hinv7.2.1
                · constructor
                  · intro h0
                    exact absurd h0 (by simp)
                  · rintro ⟨-, htr⟩
                    refine absurd htr (not_traceOkL_of_entry _ w _ st7.trace.length
                      (V8Stage.gnGen, [gnCommandStr cfg win st7.fs fl]) ?_ ?_)
                    · simp only []
                      rw [List.getElem?_append_right (le_refl _)]
                      simp
                    · simpa [v8P] using heqgn
                · intro _ e hlast
                  have he := (getLastOfConcat st7.trace
                    (V8Stage.gnGen, [gnCommandStr cfg win st7.fs fl])).symm.trans hlast
                  injection he with he2
                  subst he2
                  refine ⟨?_, fun _ => rfl, fun _ => rfl⟩
                  intro hne
                  exact absurd rfl hne

/-! ## The DevTools pipeline walk -/

theorem cdpRunCommand_ok (w : World) (s : CdpStage) (c : List String)
    (st st' : St CdpStage) (h : cdpRunCommand w s c st = Except.ok st') :
    st'.fs = st.fs ∧ st'.env = st.env ∧ st'.trace = st.trace ++ [(s, c)] ∧
      w st.trace.length = CmdRes.exit 0 := by
  simp only [cdpRunCommand, launch] at h
  split at h
  · rename_i heq
    simp only [Except.ok.injEq] at h
    subst h
    exact ⟨rfl, rfl, rfl, heq⟩
  · simp at h

theorem cdpRunCommand_error (w : World) (s : CdpStage) (c : List String)
    (st st' : St CdpStage) (h : cdpRunCommand w s c st = Except.error st') :
    st'.fs = st.fs ∧ st'.env = st.env ∧ st'.trace = st.trace ++ [(s, c)] ∧
      w st.trace.length ≠ CmdRes.exit 0 := by
  simp only [cdpRunCommand, launch] at h
  split at h
  · simp at h
  · rename_i hne
    simp only [Except.error.injEq] at h
    subst h
    exact ⟨rfl, rfl, rfl, fun hc => hne hc⟩

theorem cdpRunCommand_ok_traceOk (w : World) (s : CdpStage) (c : List String)
    (st st' : St CdpStage) (h : cdpRunCommand w s c st = Except.ok st')
    (hok : TraceOkL cdpP w st.trace) : TraceOkL cdpP w st'.trace := by
  obtain ⟨-, -, ht, hw⟩ := cdpRunCommand_ok w s c st st' h
  rw [ht]
  exact (traceOkL_concat _ _ _ _).mpr ⟨hok, hw⟩

theorem cdpRunCommand_error_notTraceOk (w : World) (s : CdpStage) (c : List String)
    (st st' : St CdpStage) (h : cdpRunCommand w s c st = Except.error st') :
    ¬ TraceOkL cdpP w st'.trace := by
  obtain ⟨-, -, ht, hw⟩ := cdpRunCommand_error w s c st st' h
  refine not_traceOkL_of_entry _ w st'.trace st.trace.length (s, c) ?_ hw
  rw [ht]
  rw [List.getElem?_append_right (le_refl _)]
  simp

theorem cdpEnvCheck_ok (w : World) (win : Bool) (ns : List String) :
    ∀ st st', cdpEnvCheck w win ns st = Except.ok st' →
    st'.fs = st.fs ∧ st'.env = st.env ∧
      (∃ ext, st'.trace = st.trace ++ ext ∧ ∀ e ∈ ext, e.1 = CdpStage.envCheck) ∧
      (TraceOkL cdpP w st.trace → TraceOkL cdpP w st'.trace) := by
  induction ns with
  | nil =>
      intro st st' h
      simp only [cdpEnvCheck, Except.ok.injEq] at h
      subst h
      exact ⟨rfl, rfl, ⟨[], by simp, by simp⟩, fun hk => hk⟩
  | cons n ns ih =>
      intro st st' h
      simp only [cdpEnvCheck] at h
      split at h
      · simp at h
      · rename_i st1 heq1
        obtain ⟨hfs1, henv1, ht1, hw1⟩ := cdpRunCommand_ok w _ _ st st1 heq1
        obtain ⟨hfs2, henv2, ⟨ext, ht2, hext⟩, hp2⟩ := ih st1 st' h
        refine ⟨by rw [hfs2, hfs1], by rw [henv2, henv1],
          ⟨[(CdpStage.envCheck, [if win = true then "where" else "which", n])] ++ ext, ?_, ?_⟩, ?_⟩
        · rw [ht2, ht1, List.append_assoc]
        · intro e he
          rcases List.mem_append.mp he with he | he
          · simp at he
            simp [he]
          · exact hext e he
        · intro hok
          exact hp2 (cdpRunCommand_ok_traceOk w _ _ st st1 heq1 hok)

theorem cdpEnvCheck_error (w : World) (win : Bool) (ns : List String) :
    ∀ st st', cdpEnvCheck w win ns st = Except.error st' →
    st'.fs = st.fs ∧ st'.env = st.env ∧
      (∃ ext, st'.trace = st.trace ++ ext ∧ ∀ e ∈ ext, e.1 = CdpStage.envCheck) ∧
      ¬ TraceOkL cdpP w st'.trace := by
  induction ns with
  | nil =>
      intro st st' h
      simp [cdpEnvCheck] at h
  | cons n ns ih =>
      intro st st' h
      simp only [cdpEnvCheck] at h
      split at h
      · rename_i st1 heq1
        simp only [Except.error.injEq] at h
        obtain ⟨hfs1, henv1, ht1, hw1⟩ := cdpRunCommand_error w _ _ st st1 heq1
        rw [← h]
        refine ⟨hfs1, henv1,
          ⟨[(CdpStage.envCheck, [if win = true then "where" else "which", n])], ht1, by simp⟩,
          cdpRunCommand_error_notTraceOk w _ _ st st1 heq1⟩
      · rename_i st1 heq1
        obtain ⟨hfs1, henv1, ht1, hw1⟩ := cdpRunCommand_ok w _ _ st st1 heq1
        obtain ⟨hfs2, henv2, ⟨ext, ht2, hext⟩, hnot⟩ := ih st1 st' h
        refine ⟨by rw [hfs2, hfs1], by rw [henv2, henv1],
          ⟨[(CdpStage.envCheck, [if win = true then "where" else "which", n])] ++ ext, ?_, ?_⟩, hnot⟩
        · rw [ht2, ht1, List.append_assoc]
        · intro e he
          rcases List.mem_append.mp he with he | he
          · simp at he
            simp [he]
          · exact hext e he

/-- What each stage tag is allowed to launch in a run of the DevTools
pipeline starting with filesystem `fs0`. -/
def cdpAllowed (ws : String) (fs0 : List String) (e : CdpStage × List String) : Prop :=
  match e.1 with
  | CdpStage.prereqGit => e.2 = ["git", "--version"]
  | CdpStage.prereqNpm => e.2 = ["npm", "--version"]
  | CdpStage.cloneDepot =>
      e.2 = ["git", "clone", DEPOT_TOOLS_URL, ws ++ "/depot_tools"] ∧
        (ws ++ "/depot_tools") ∉ fs0
  | CdpStage.envCheck => True
  | CdpStage.fetchFrontend =>
      e.2 = ["fetch", "devtools-frontend"] ∧
        (ws ++ "/devtools" ++ "/devtools-frontend") ∉ fs0
  | CdpStage.npmInstall => e.2 = ["npm", "install"]
  | CdpStage.gnGen => e.2 = ["gn", "gen", "out/Default"]
  | CdpStage.ninjaBuild => e.2 = ["autoninja", "-C", "out/Default"]

/-- Invariant along the DevTools pipeline body. -/
def cdpInv (ws : String) (fs0 : List String) (w : World) (st : St CdpStage) : Prop :=
  (∀ e ∈ st.trace, cdpAllowed ws fs0 e) ∧
  fs0 ⊆ st.fs ∧ ws ∈ st.fs ∧ TraceOkL cdpP w st.trace

theorem cdpStep_ok_inv (ws : String) (fs0 : List String) (w : World) (s : CdpStage)
    (c : List String) (st st' : St CdpStage)
    (hinv : cdpInv ws fs0 w st) (ha : cdpAllowed ws fs0 (s, c))
    (h : cdpRunCommand w s c st = Except.ok st') :
    cdpInv ws fs0 w st' := by
  obtain ⟨hall, hsub, hws, hok⟩ := hinv
  obtain ⟨hfs', henv', ht', hw'⟩ := cdpRunCommand_ok w s c st st' h
  refine ⟨?_, by rw [hfs']; exact hsub, by rw [hfs']; exact hws,
    cdpRunCommand_ok_traceOk w s c st st' h hok⟩
  rw [ht']
  intro e he
  rcases List.mem_append.mp he with he | he
  · exact hall e he
  · simp at he
    subst he
    exact ha

theorem cdpStep_error_inv (ws : String) (fs0 : List String) (w : World) (s : CdpStage)
    (c : List String) (st st' : St CdpStage)
    (hinv : cdpInv ws fs0 w st) (ha : cdpAllowed ws fs0 (s, c))
    (h : cdpRunCommand w s c st = Except.error st') :
    (∀ e ∈ st'.trace, cdpAllowed ws fs0 e) ∧ fs0 ⊆ st'.fs ∧ ws ∈ st'.fs ∧
      ¬ TraceOkL cdpP w st'.trace := by
  obtain ⟨hall, hsub, hws, hok⟩ := hinv
  obtain ⟨hfs', henv', ht', hw'⟩ := cdpRunCommand_error w s c st st' h
  refine ⟨?_, by rw [hfs']; exact hsub, by rw [hfs']; exact hws,
    cdpRunCommand_error_notTraceOk w s c st st' h⟩
  rw [ht']
  intro e he
  rcases List.mem_append.mp he with he | he
  · exact hall e he
  · simp at he
    subst he
    exact ha

def cdpOut : Except (St CdpStage) (St CdpStage) → St CdpStage
  | Except.ok st => st
  | Except.error st => st

theorem removeTree_clean (root : String) (l : List String) :
    ∀ p ∈ removeTree root l, ¬ (p = root) ∧ strStarts (root ++ "/") p = false := by
  intro p hp
  unfold removeTree at hp
  have hmem := List.of_mem_filter hp
  simpa using hmem

/-- Closes an error leaf of the DevTools body walk. -/
theorem cdpLeaf_error (ws : String) (fs : List String) (env envcur : List (String × String))
    (win : Bool) (w : World) (s : CdpStage) (c : List String) (st st1 : St CdpStage)
    (hinv : cdpInv ws fs w st) (henv : st.env = envcur)
    (hshape : envcur = env ∨ envcur = composeEnv env (ws ++ "/depot_tools") win)
    (ha : cdpAllowed ws fs (s, c))
    (h : cdpRunCommand w s c st = Except.error st1) :
    (∀ e ∈ (cdpOut (Except.error st1)).trace, cdpAllowed ws fs e) ∧
    ((cdpOut (Except.error st1)).env = env ∨
      (cdpOut (Except.error st1)).env = composeEnv env (ws ++ "/depot_tools") win) ∧
    (∀ st', (Except.error st1 : Except (St CdpStage) (St CdpStage)) = Except.ok st' →
      ws ∈ st'.fs ∧ TraceOkL cdpP w st'.trace) ∧
    (∀ st', (Except.error st1 : Except (St CdpStage) (St CdpStage)) = Except.error st' →
      ¬ TraceOkL cdpP w st'.trace) := by
  obtain ⟨hall1, hsub1, hws1, hnot1⟩ := cdpStep_error_inv ws fs w s c st st1 hinv ha h
  obtain ⟨-, henv1, -, -⟩ := cdpRunCommand_error w s c st st1 h
  refine ⟨hall1, ?_, ?_, ?_⟩
  · rw [show (cdpOut (Except.error st1)).env = st1.env from rfl, henv1, henv]
    exact hshape
  · intro st' hcon
    exact absurd hcon (by simp)
  · intro st' heq
    simp only [Except.error.injEq] at heq
    rw [← heq]
    exact hnot1

/-- Master characterisation of the DevTools pipeline body. -/
theorem cdpBody_run (w : World) (ws : String) (win : Bool) (fs : List String)
    (env : List (String × String)) (res : Except (St CdpStage) (St CdpStage))
    (hres : cdpBody w ws win (initSt fs env) = res) :
    (∀ e ∈ (cdpOut res).trace, cdpAllowed ws fs e) ∧
    ((cdpOut res).env = env ∨ (cdpOut res).env = composeEnv env (ws ++ "/depot_tools") win) ∧
    (∀ st', res = Except.ok st' → ws ∈ st'.fs ∧ TraceOkL cdpP w st'.trace) ∧
    (∀ st', res = Except.error st' → ¬ TraceOkL cdpP w st'.trace) := by
  unfold cdpBody at hres
  simp only at hres
  have hinv1 : cdpInv ws fs w (makeDirs ws (initSt fs env)) := by
    refine ⟨?_, ?_, makeDirs_mem ws (initSt fs env), ?_⟩
    · rw [makeDirs_trace]
      intro e he
      simp [initSt] at he
    · intro p hp
      exact makeDirs_fs_sub ws (initSt fs env) (by simpa [initSt] using hp)
    · rw [makeDirs_trace]
      exact traceOkL_nil _ _
  have henv1 : (makeDirs ws (initSt fs env : St CdpStage)).env = env := by
    rw [makeDirs_env]
    rfl
  split at hres
  · -- git --version failed
    rename_i st1 heq1
    subst hres
    exact cdpLeaf_error ws fs env env win w _ _ _ st1 hinv1 henv1 (Or.inl rfl)
      (show cdpAllowed ws fs (CdpStage.prereqGit, ["git", "--version"]) from rfl) heq1
  · rename_i st2 heq1
    have hinv2 : cdpInv ws fs w st2 :=
      cdpStep_ok_inv ws fs w _ _ _ st2 hinv1
        (show cdpAllowed ws fs (CdpStage.prereqGit, ["git", "--version"]) from rfl) heq1
    have henv2 : st2.env = env := by
      rw [(cdpRunCommand_ok w _ _ _ st2 heq1).2.1, henv1]
    split at hres
    · -- npm --version failed
      rename_i st3 heq2
      subst hres
      exact cdpLeaf_error ws fs env env win w _ _ _ st3 hinv2 henv2 (Or.inl rfl)
        (show cdpAllowed ws fs (CdpStage.prereqNpm, ["npm", "--version"]) from rfl) heq2
    · rename_i st3 heq2
      have hinv3 : cdpInv ws fs w st3 :=
        cdpStep_ok_inv ws fs w _ _ _ st3 hinv2
          (show cdpAllowed ws fs (CdpStage.prereqNpm, ["npm", "--version"]) from rfl) heq2
      have henv3 : st3.env = env := by
        rw [(cdpRunCommand_ok w _ _ _ st3 heq2).2.1, henv2]
      split at hres
      · -- depot_tools clone failed
        rename_i st4 heq3
        subst hres
        split at heq3
        · simp at heq3
        · rename_i hmem
          have ha : cdpAllowed ws fs (CdpStage.cloneDepot,
              ["git", "clone", DEPOT_TOOLS_URL, ws ++ "/depot_tools"]) := by
            refine ⟨rfl, fun hin => hmem (hinv3.2.1 hin)⟩
          exact cdpLeaf_error ws fs env env win w _ _ _ st4 hinv3 henv3 (Or.inl rfl) ha heq3
      · rename_i st4 heq3
        have hinv4 : cdpInv ws fs w st4 := by
          split at heq3
          · simp only [Except.ok.injEq] at heq3
            rw [← heq3]
            exact hinv3
          · rename_i hmem
            have ha : cdpAllowed ws fs (CdpStage.cloneDepot,
                ["git", "clone", DEPOT_TOOLS_URL, ws ++ "/depot_tools"]) := by
              refine ⟨rfl, fun hin => hmem (hinv3.2.1 hin)⟩
            exact cdpStep_ok_inv ws fs w _ _ _ st4 hinv3 ha heq3
        have henv4 : st4.env = env := by
          split at heq3
          · simp only [Except.ok.injEq] at heq3
            rw [← heq3]
            exact henv3
          · rw [(cdpRunCommand_ok w _ _ _ st4 heq3).2.1, henv3]
        -- compose the environment (lines 143-146)
        set st5 : St CdpStage := { st4 with
          env := composeEnv st4.env (ws ++ "/depot_tools") win } with hst5
        have hinv5 : cdpInv ws fs w st5 := by
          obtain ⟨hall, hsub, hws, hok⟩ := hinv4
          exact ⟨hall, hsub, hws, hok⟩
        have henv5 : st5.env = composeEnv env (ws ++ "/depot_tools") win := by
          rw [hst5]
          simp [henv4]
        split at hres
        · -- environment check failed
          rename_i st6 heq4
          subst hres
          obtain ⟨hfs6, henv6, ⟨ext, ht6, hext⟩, hnot6⟩ :=
            cdpEnvCheck_error w win (envCheckNames win) st5 st6 heq4
          refine ⟨?_, ?_, ?_, ?_⟩
          · rw [show (cdpOut (Except.error st6)).trace = st6.trace from rfl, ht6]
            intro e he
            rcases List.mem_append.mp he with he | he
            · exact hinv5.1 e he
            · have h5 := hext e he
              obtain ⟨es, ec⟩ := e
              simp at h5
              subst h5
              simp [cdpAllowed]
          · rw [show (cdpOut (Except.error st6)).env = st6.env from rfl, henv6, henv5]
            exact Or.inr rfl
          · intro st' hcon
            exact absurd hcon (by simp)
          · intro st' heq
            simp only [Except.error.injEq] at heq
            rw [← heq]
            exact hnot6
        · rename_i st6 heq4
          obtain ⟨hfs6, henv6, ⟨ext, ht6, hext⟩, hp6⟩ :=
            cdpEnvCheck_ok w win (envCheckNames win) st5 st6 heq4
          have hinv6 : cdpInv ws fs w st6 := by
            obtain ⟨hall, hsub, hws, hok⟩ := hinv5
            refine ⟨?_, by rw [hfs6]; exact hsub, by rw [hfs6]; exact hws, hp6 hok⟩
            rw [ht6]
            intro e he
            rcases List.mem_append.mp he with he | he
            · exact hall e he
            · have h5 := hext e he
              obtain ⟨es, ec⟩ := e
              simp at h5
              subst h5
              simp [cdpAllowed]
          have henv6' : st6.env = composeEnv env (ws ++ "/depot_tools") win := by
            rw [henv6, henv5]
          -- mkdir devtools (lines 151-152)
          set st7 : St CdpStage := makeDirs (ws ++ "/devtools") st6 with hst7
          have hinv7 : cdpInv ws fs w st7 := by
            obtain ⟨hall, hsub, hws, hok⟩ := hinv6
            refine ⟨?_, ?_, ?_, ?_⟩
            · rw [hst7, makeDirs_trace]
              exact hall
            · intro p hp
              exact makeDirs_fs_sub _ st6 (hsub hp)
            · exact makeDirs_fs_sub _ st6 hws
            · rw [hst7, makeDirs_trace]
              exact hok
          have henv7 : st7.env = composeEnv env (ws ++ "/depot_tools") win := by
            rw [hst7, makeDirs_env, henv6']
          split at hres
          · -- fetch devtools-frontend failed
            rename_i st8 heq5
            subst hres
            split at heq5
            · simp at heq5
            · rename_i hmem
              have ha : cdpAllowed ws fs (CdpStage.fetchFrontend,
                  ["fetch", "devtools-frontend"]) := by
                refine ⟨rfl, fun hin => hmem ?_⟩
                exact makeDirs_fs_sub _ st6 (hinv6.2.1 hin)
              exact cdpLeaf_error ws fs env _ win w _ _ _ st8 hinv7 henv7 (Or.inr rfl) ha heq5
          · rename_i st8 heq5
            have hinv8 : cdpInv ws fs w st8 := by
              split at heq5
              · simp only [Except.ok.injEq] at heq5
                rw [← heq5]
                exact hinv7
              · rename_i hmem
                have ha : cdpAllowed ws fs (CdpStage.fetchFrontend,
                    ["fetch", "devtools-frontend"]) := by
                  refine ⟨rfl, fun hin => hmem ?_⟩
                  exact makeDirs_fs_sub _ st6 (hinv6.2.1 hin)
                exact cdpStep_ok_inv ws fs w _ _ _ st8 hinv7 ha heq5
            have henv8 : st8.env = composeEnv env (ws ++ "/depot_tools") win := by
              split at heq5
              · simp only [Except.ok.injEq] at heq5
                rw [← heq5]
                exact henv7
              · rw [(cdpRunCommand_ok w _ _ _ st8 heq5).2.1, henv7]
            split at hres
            · -- npm install failed
              rename_i st9 heq6
              subst hres
              exact cdpLeaf_error ws fs env _ win w _ _ _ st9 hinv8 henv8 (Or.inr rfl)
                (show cdpAllowed ws fs (CdpStage.npmInstall, ["npm", "install"]) from rfl) heq6
            · rename_i st9 heq6
              have hinv9 : cdpInv ws fs w st9 :=
                cdpStep_ok_inv ws fs w _ _ _ st9 hinv8
                  (show cdpAllowed ws fs (CdpStage.npmInstall, ["npm", "install"]) from rfl) heq6
              have henv9 : st9.env = composeEnv env (ws ++ "/depot_tools") win := by
                rw [(cdpRunCommand_ok w _ _ _ st9 heq6).2.1, henv8]
              split at hres
              · -- gn gen failed
                rename_i st10 heq7
                subst hres
                exact cdpLeaf_error ws fs env _ win w _ _ _ st10 hinv9 henv9 (Or.inr rfl)
                  (show cdpAllowed ws fs (CdpStage.gnGen, ["gn", "gen", "out/Default"]) from rfl) heq7
              · rename_i st10 heq7
                have hinv10 : cdpInv ws fs w st10 :=
                  cdpStep_ok_inv ws fs w _ _ _ st10 hinv9
                    (show cdpAllowed ws fs (CdpStage.gnGen, ["gn", "gen", "out/Default"]) from rfl) heq7
                have henv10 : st10.env = composeEnv env (ws ++ "/depot_tools") win := by
                  rw [(cdpRunCommand_ok w _ _ _ st10 heq7).2.1, henv9]
                -- autoninja (line 175)
                cases hlast : cdpRunCommand w CdpStage.ninjaBuild
                    ["autoninja", "-C", "out/Default"] st10 with
                | error st11 =>
                    rw [hlast] at hres
                    subst hres
                    exact cdpLeaf_error ws fs env _ win w _ _ _ st11 hinv10 henv10
                      (Or.inr rfl) (show cdpAllowed ws fs (CdpStage.ninjaBuild,
                        ["autoninja", "-C", "out/Default"]) from rfl) hlast
                | ok st11 =>
                    rw [hlast] at hres
                    subst hres
                    have hinv11 : cdpInv ws fs w st11 :=
                      cdpStep_ok_inv ws fs w _ _ _ st11 hinv10
                        (show cdpAllowed ws fs (CdpStage.ninjaBuild,
                          ["autoninja", "-C", "out/Default"]) from rfl) hlast
                    have henv11 : st11.env = composeEnv env (ws ++ "/depot_tools") win := by
                      rw [(cdpRunCommand_ok w _ _ _ st11 hlast).2.1, henv10]
                    refine ⟨hinv11.1, Or.inr henv11, ?_, ?_⟩
                    · intro st' heq
                      simp only [Except.ok.injEq] at heq
                      rw [← heq]
                      exact ⟨hinv11.2.2.1, hinv11.2.2.2⟩
                    · intro st' hcon
                      exact absurd hcon (by simp)

/-- Master characterisation of one run of `cdpMain` from a fresh
initial state: trace shape, environment shape, exit-code discipline, and
the two terminal filesystem states. -/
theorem cdpMain_run (w : World) (ws : String) (win : Bool) (fs : List String)
    (env : List (String × String)) (r : Nat × St CdpStage)
    (hr : cdpMain w ws win (initSt fs env) = r) :
    (∀ e ∈ r.2.trace, cdpAllowed ws fs e) ∧
    (r.2.env = env ∨ r.2.env = composeEnv env (ws ++ "/depot_tools") win) ∧
    (r.1 = 0 ↔ TraceOkL cdpP w r.2.trace) ∧
    (r.1 = 0 → ws ∈ r.2.fs) ∧
    (r.1 ≠ 0 → r.1 = 1 ∧ ∀ p ∈ r.2.fs, ¬ (p = ws) ∧ strStarts (ws ++ "/") p = false) := by
  unfold cdpMain at hr
  cases hbody : cdpBody w ws win (initSt fs env) with
  | ok st1 =>
      rw [hbody] at hr
      subst hr
      obtain ⟨hall, henv, hok, -⟩ := cdpBody_run w ws win fs env _ hbody
      obtain ⟨hws, htr⟩ := hok st1 rfl
      refine ⟨hall, henv, ?_, fun _ => hws, fun h0 => absurd rfl h0⟩
      exact ⟨fun _ => htr, fun _ => rfl⟩
  | error st1 =>
      rw [hbody] at hr
      subst hr
      obtain ⟨hall, henv, -, herr⟩ := cdpBody_run w ws win fs env _ hbody
      refine ⟨hall, henv, ?_, ?_, ?_⟩
      · constructor
        · intro h0
          exact absurd h0 (by simp)
        · intro htr
          exact absurd htr (herr st1 rfl)
      · intro h0
        exact absurd h0 (by simp)
      · intro _
        exact ⟨rfl, removeTree_clean ws st1.fs⟩

/-! ## Properties of `pyStrip` -/

theorem dropWhile_dropWhile {α : Type} (p : α → Bool) (xs : List α) :
    (xs.dropWhile p).dropWhile p = xs.dropWhile p := by
  induction xs with
  | nil => rfl
  | cons a t ih =>
      by_cases h : p a = true
      · simp only [List.dropWhile_cons, h, if_pos]
        exact ih
      · simp only [List.dropWhile_cons, h]
        simp [h]

theorem dropWhile_append_eq {α : Type} (p : α → Bool) (xs : List α) :
    ∃ t, xs = t ++ xs.dropWhile p := by
  induction xs with
  | nil => exact ⟨[], rfl⟩
  | cons a t ih =>
      by_cases h : p a = true
      · obtain ⟨u, hu⟩ := ih
        refine ⟨a :: u, ?_⟩
        simp only [List.dropWhile_cons, h, if_pos]
        rw [List.cons_append, ← hu]
      · refine ⟨[], ?_⟩
        simp [List.dropWhile_cons, h]

theorem dropWhile_head_false {α : Type} (p : α → Bool) (xs : List α) (a : α)
    (rest : List α) (h : xs.dropWhile p = a :: rest) : p a = false := by
  induction xs with
  | nil => simp at h
  | cons b t ih =>
      by_cases hb : p b = true
      · rw [show List.dropWhile p (b :: t) = List.dropWhile p t by
          simp [List.dropWhile_cons, hb]] at h
        exact ih h
      · rw [show List.dropWhile p (b :: t) = b :: t by
          simp [List.dropWhile_cons, hb]] at h
        injection h with h1 h2
        rw [← h1]
        simpa using hb

theorem dropWhile_getLast? {α : Type} (p : α → Bool) (xs : List α)
    (h : xs.dropWhile p ≠ []) : (xs.dropWhile p).getLast? = xs.getLast? := by
  obtain ⟨t, ht⟩ := dropWhile_append_eq p xs
  conv_rhs => rw [ht]
  rw [List.getLast?_append_of_ne_nil t h]

theorem stripList_head_false (cs : List Char) (a : Char) (rest : List Char)
    (h : stripList cs = a :: rest) : Char.isWhitespace a = false := by
  unfold stripList at h
  have h1 : (cs.dropWhile Char.isWhitespace).reverse.dropWhile Char.isWhitespace ≠ [] := by
    intro hnil
    rw [hnil] at h
    simp at h
  have h2 : ((cs.dropWhile Char.isWhitespace).reverse.dropWhile Char.isWhitespace).getLast? =
      (cs.dropWhile Char.isWhitespace).reverse.getLast? :=
    dropWhile_getLast? _ _ h1
  have h3 : (cs.dropWhile Char.isWhitespace).reverse.getLast? =
      (cs.dropWhile Char.isWhitespace).head? := by
    cases hd : cs.dropWhile Char.isWhitespace with
    | nil => simp [hd]
    | cons b bt => simp [hd]
  have h4 : ((cs.dropWhile Char.isWhitespace).reverse.dropWhile Char.isWhitespace).getLast? =
      some a := by
    have : ((cs.dropWhile Char.isWhitespace).reverse.dropWhile Char.isWhitespace).reverse =
        a :: rest := h
    rw [← List.head?_reverse]
    rw [this]
    rfl
  rw [h2, h3] at h4
  cases hd : cs.dropWhile Char.isWhitespace with
  | nil => rw [hd] at h4; simp at h4
  | cons b bt =>
      rw [hd] at h4
      simp only [List.head?_cons, Option.some.injEq] at h4
      rw [← h4]
      exact dropWhile_head_false _ cs b bt hd

theorem stripList_tail_false (cs : List Char) (a : Char) (front : List Char)
    (h : stripList cs = front ++ [a]) : Char.isWhitespace a = false := by
  unfold stripList at h
  have h4 : ((cs.dropWhile Char.isWhitespace).reverse.dropWhile Char.isWhitespace) =
      a :: front.reverse := by
    have := congrArg List.reverse h
    simpa using this
  exact dropWhile_head_false _ _ a front.reverse h4

theorem stripList_idem (cs : List Char) : stripList (stripList cs) = stripList cs := by
  cases hs : stripList cs with
  | nil => rfl
  | cons a rest =>
      have hhead : Char.isWhitespace a = false := stripList_head_false cs a rest hs
      have hdrop1 : (a :: rest).dropWhile Char.isWhitespace = a :: rest := by
        simp [List.dropWhile_cons, hhead]
      cases hrev : (a :: rest).reverse with
      | nil => simp at hrev
      | cons b bt =>
          have hb : Char.isWhitespace b = false := by
            have : stripList cs = bt.reverse ++ [b] := by
              rw [hs]
              have := congrArg List.reverse hrev
              simpa using this
            exact stripList_tail_false cs b bt.reverse this
          unfold stripList
          rw [hdrop1, hrev]
          simp only [List.dropWhile_cons, hb]
          simp only [Bool.false_eq_true, if_neg]
          rw [← hrev]
          simp

theorem pyStrip_idem (s : String) : pyStrip (pyStrip s) = pyStrip s := by
  unfold pyStrip
  rw [show (String.mk (stripList s.data)).data = stripList s.data from rfl]
  rw [stripList_idem]

theorem overrideArgs_eq_filter (lines : List String) :
    overrideArgs lines =
      (lines.map pyStrip).filter (fun t => !(t == "") && !(strStarts "#" t)) := by
  induction lines with
  | nil => rfl
  | cons l t ih =>
      simp only [overrideArgs, List.filterMap_cons, List.map_cons, List.filter_cons] at *
      by_cases h1 : pyStrip l = ""
      · simp only [keepLine, h1]
        simp only [ne_eq, not_true_eq_false, false_and, if_neg, if_false]
        simpa [h1] using ih
      · by_cases h2 : strStarts "#" (pyStrip l) = true
        · simp only [keepLine, h2]
          simp only [ne_eq, not_true_eq_false, and_false, if_neg, if_false]
          simpa [h1, h2] using ih
        · simp only [keepLine]
          rw [if_pos ⟨h1, by simpa using h2⟩]
          simp only [h1, h2]
          simpa [h1, h2] using congrArg (List.cons (pyStrip l)) ih

/-! ## Association-list lemmas for the remote-alias model -/

theorem remoteLookup_none_filter (rs : Remotes) (name : String)
    (h : remoteLookup rs name = none) : rs.filter (fun q => q.1 == name) = [] := by
  induction rs with
  | nil => rfl
  | cons p t ih =>
      by_cases hp : p.1 = name
      · simp [remoteLookup, hp] at h
      · simp only [remoteLookup] at h
        rw [if_neg (by simpa using hp)] at h
        simp [List.filter_cons, hp, ih h]

theorem remoteLookup_mem_keys (rs : Remotes) (name u : String)
    (h : remoteLookup rs name = some u) : name ∈ rs.map Prod.fst := by
  induction rs with
  | nil => simp [remoteLookup] at h
  | cons p t ih =>
      by_cases hp : p.1 = name
      · simp [hp]
      · simp only [remoteLookup] at h
        rw [if_neg (by simpa using hp)] at h
        simp [ih h]

theorem remoteLookup_some_filter (rs : Remotes) (name u : String)
    (hnd : (rs.map Prod.fst).Nodup) (h : remoteLookup rs name = some u) :
    (rs.filter (fun q => q.1 == name)).length = 1 := by
  induction rs with
  | nil => simp [remoteLookup] at h
  | cons p t ih =>
      simp only [List.map_cons, List.nodup_cons] at hnd
      by_cases hp : p.1 = name
      · have htail : remoteLookup t name = none := by
          cases hlt : remoteLookup t name with
          | none => rfl
          | some v =>
              exact absurd (remoteLookup_mem_keys t name v hlt)
                (by rw [← hp]; exact hnd.1)
        simp [List.filter_cons, hp, remoteLookup_none_filter t name htail]
      · simp only [remoteLookup] at h
        rw [if_neg (by simpa using hp)] at h
        simp [List.filter_cons, hp, ih hnd.2 h]

theorem setUrl_filter_length (rs : Remotes) (name url : String) :
    ((rs.map (fun q => if q.1 == name then (name, url) else q)).filter
      (fun q => q.1 == name)).length = (rs.filter (fun q => q.1 == name)).length := by
  induction rs with
  | nil => rfl
  | cons p t ih =>
      by_cases hp : p.1 = name
      · simp only [List.map_cons]
        rw [if_pos (by simpa using hp)]
        simp only [List.filter_cons]
        rw [if_pos (by simp), if_pos (by simpa using hp)]
        simp only [List.length_cons]
        omega
      · simp only [List.map_cons]
        rw [if_neg (by simpa using hp)]
        simp only [List.filter_cons]
        rw [if_neg (by simpa using hp), if_neg (by simpa using hp)]
        exact ih

theorem setUrl_lookup_self (rs : Remotes) (name url u : String)
    (h : remoteLookup rs name = some u) :
    remoteLookup (rs.map (fun q => if q.1 == name then (name, url) else q)) name
      = some url := by
  induction rs with
  | nil => simp [remoteLookup] at h
  | cons p t ih =>
      by_cases hp : p.1 = name
      · simp [remoteLookup, hp]
      · simp only [remoteLookup] at h
        rw [if_neg (by simpa using hp)] at h
        simp only [List.map_cons]
        rw [if_neg (by simpa using hp)]
        simp only [remoteLookup]
        rw [if_neg (by simpa using hp)]
        exact ih h

theorem setUrl_lookup_other (rs : Remotes) (name url nm : String) (hne : nm ≠ name) :
    remoteLookup (rs.map (fun q => if q.1 == name then (name, url) else q)) nm
      = remoteLookup rs nm := by
  induction rs with
  | nil => rfl
  | cons p t ih =>
      by_cases hp : p.1 = name
      · simp only [List.map_cons]
        rw [if_pos (by simpa using hp)]
        simp only [remoteLookup]
        rw [if_neg (by simp [Ne.symm hne]), if_neg (by simp [hp, Ne.symm hne])]
        exact ih
      · simp only [List.map_cons]
        rw [if_neg (by simpa using hp)]
        by_cases hq : p.1 = nm
        · simp [remoteLookup, hq]
        · simp only [remoteLookup]
          rw [if_neg (by simpa using hq), if_neg (by simpa using hq)]
          exact ih

theorem append_lookup_self (rs : Remotes) (name url : String)
    (h : remoteLookup rs name = none) :
    remoteLookup (rs ++ [(name, url)]) name = some url := by
  induction rs with
  | nil => simp [remoteLookup]
  | cons p t ih =>
      by_cases hp : p.1 = name
      · simp [remoteLookup, hp] at h
      · simp only [remoteLookup] at h
        rw [if_neg (by simpa using hp)] at h
        rw [List.cons_append]
        simp only [remoteLookup]
        rw [if_neg (by simpa using hp)]
        exact ih h

theorem append_lookup_other (rs : Remotes) (name url nm : String) (hne : nm ≠ name) :
    remoteLookup (rs ++ [(name, url)]) nm = remoteLookup rs nm := by
  induction rs with
  | nil =>
      simp only [List.nil_append, remoteLookup]
      rw [if_neg (by simp [Ne.symm hne])]
  | cons p t ih =>
      by_cases hp : p.1 = nm
      · simp [remoteLookup, hp]
      · rw [List.cons_append]
        simp only [remoteLookup]
        rw [if_neg (by simpa using hp), if_neg (by simpa using hp)]
        exact ih

/-! ## String facts about the computed GN arguments -/

theorem computedGnArgs_strings (cfg : V8Config) (isWin : Bool) :
    ∀ x ∈ computedGnArgs cfg isWin,
      pyStrip x = x ∧ x ≠ "" ∧ strStarts "#" x = false := by
  cases hc : cfg.config <;> cases hb : cfg.buildType <;>
    cases hr : cfg.noRust <;> cases hw : isWin <;> cases hm : cfg.msvc <;>
    simp only [computedGnArgs, hc, hb, hr, hm] <;> decide

/-! ## Demo values used by counterexamples and witnesses -/

/-- Default CLI configuration of `v8_workspace.py` (all argparse defaults). -/
def v8CfgDefault : V8Config :=
  { workspace := "v8_build", buildType := BuildType.static, config := BuildMode.release,
    gnArgsFile := none, v8ForkUrl := none, v8ForkBranch := "main",
    msvc := false, noRust := false, noCustomCxx := false }

/-- Configuration with an override file supplied. -/
def v8CfgOverride : V8Config := { v8CfgDefault with gnArgsFile := some "extra.gn" }

/-- World in which the eighth launched process exits 42 and all others
succeed. -/
def cdpW42 : World := fun n => if n == 7 then CmdRes.exit 42 else CmdRes.exit 0

/-- World in which the second launched process exits 42 and all others
succeed. -/
def v8W42 : World := fun n => if n == 1 then CmdRes.exit 42 else CmdRes.exit 0

/-- Filesystem in which every marker of the DevTools pipeline is already
satisfied. -/
def cdpFs0 : List String :=
  ["ws", "ws/depot_tools", "ws/devtools", "ws/devtools/devtools-frontend"]

/-! ## Claims -/

/-- Claim C3: `buildConfigureArgs` is a pure, deterministic function of
the BuildConfiguration, the platform, and the override file: two runs
whose filesystems agree on the override file's existence and content
compose identical argument sequences, element for element. -/
theorem c3_buildConfigureArgs_deterministic (cfg : V8Config) (isWin : Bool)
    (fs1 fs2 : List String) (fl1 fl2 : String → List String)
    (hov : ∀ p, cfg.gnArgsFile = some p → ((p ∈ fs1 ↔ p ∈ fs2) ∧ fl1 p = fl2 p)) :
    buildGnArgs cfg isWin fs1 fl1 = buildGnArgs cfg isWin fs2 fl2 := by
  cases hg : cfg.gnArgsFile with
  | none => simp [buildGnArgs, overrideStep, hg]
  | some p =>
      obtain ⟨hmemiff, hlines⟩ := hov p hg
      simp only [buildGnArgs, overrideStep, hg]
      by_cases hc : p ≠ "" ∧ p ∈ fs1
      · rw [if_pos hc, if_pos ⟨hc.1, hmemiff.mp hc.2⟩]
        rw [hlines]
      · rw [if_neg hc, if_neg (fun hc2 => hc ⟨hc2.1, hmemiff.mpr hc2.2⟩)]

theorem c3_witness :
    buildGnArgs v8CfgOverride false ["extra.gn"] (fun _ => ["a=b"]) =
      buildGnArgs v8CfgOverride false ["extra.gn", "junk"] (fun _ => ["a=b"]) := by
  refine c3_buildConfigureArgs_deterministic v8CfgOverride false
    ["extra.gn"] ["extra.gn", "junk"] (fun _ => ["a=b"]) (fun _ => ["a=b"]) ?_
  intro p hp
  have hp' : "extra.gn" = p := by
    simpa [v8CfgOverride, v8CfgDefault] using hp
  subst hp'
  exact ⟨by decide, rfl⟩

/-- Claim C5: the composed sequence filters the override file exactly as
specified: it equals the computed arguments followed by the file's
stripped lines with blank and `#`-prefixed lines removed, in file order;
and no element of the composed sequence is blank after stripping or
starts with `#`. -/
theorem c5_override_filtering (cfg : V8Config) (isWin : Bool) (fs : List String)
    (fl : String → List String) (p : String)
    (hp : cfg.gnArgsFile = some p) (hne : p ≠ "") (hmem : p ∈ fs) :
    buildGnArgs cfg isWin fs fl =
      computedGnArgs cfg isWin ++
        ((fl p).map pyStrip).filter (fun t => !(t == "") && !(strStarts "#" t)) ∧
    (∀ x ∈ buildGnArgs cfg isWin fs fl,
      pyStrip x ≠ "" ∧ strStarts "#" (pyStrip x) = false) := by
  have heq : buildGnArgs cfg isWin fs fl =
      computedGnArgs cfg isWin ++ overrideArgs (fl p) := by
    simp only [buildGnArgs, overrideStep, hp]
    rw [if_pos ⟨hne, hmem⟩]
  refine ⟨by rw [heq, overrideArgs_eq_filter], ?_⟩
  intro x hx
  rw [heq] at hx
  rcases List.mem_append.mp hx with hx | hx
  · obtain ⟨hfix, hne', hsw⟩ := computedGnArgs_strings cfg isWin x hx
    rw [hfix]
    exact ⟨hne', hsw⟩
  · rw [overrideArgs_eq_filter] at hx
    have hcond := List.of_mem_filter hx
    have hmem2 := List.mem_of_mem_filter hx
    obtain ⟨l, hl, hxl⟩ := List.mem_map.mp hmem2
    have hfix : pyStrip x = x := by
      rw [← hxl]
      exact pyStrip_idem l
    have h1 : x ≠ "" := by
      intro hxe
      rw [hxe] at hcond
      simp at hcond
    have h2 : strStarts "#" x = false := by
      cases hb : strStarts "#" x with
      | false => rfl
      | true =>
          rw [hb] at hcond
          simp at hcond
    rw [hfix]
    exact ⟨h1, h2⟩

theorem c5_witness :
    buildGnArgs v8CfgOverride false ["extra.gn"]
        (fun _ => ["  v8_enable_i18n_support=false  ", "", "# note", "a=b"]) =
      computedGnArgs v8CfgOverride false ++
        ((["  v8_enable_i18n_support=false  ", "", "# note", "a=b"]).map pyStrip).filter
          (fun t => !(t == "") && !(strStarts "#" t)) := by
  have h := c5_override_filtering v8CfgOverride false ["extra.gn"]
    (fun _ => ["  v8_enable_i18n_support=false  ", "", "# note", "a=b"]) "extra.gn"
    (by decide) (by decide) (by decide)
  exact h.1

/-- Claim C6 counterexample: with an override path supplied and the file
absent from the filesystem, the override step emits no output line at
all, refuting the claim that a warning is issued. -/
theorem c6_counterexample :
    (overrideStep (some "extra.gn") ["v8_build"] (fun _ => ["a=b"])).2 = [] ∧
    (overrideStep (some "extra.gn") ["v8_build"] (fun _ => ["a=b"])).1 = [] := by
  decide

/-- Claim C6 as amended: when the supplied override file does not exist,
the pipeline silently continues with exactly the computed arguments: no
override tokens are appended and no message (warning or otherwise) is
printed by the override step. -/
theorem c6_missing_override_silent (cfg : V8Config) (isWin : Bool) (fs : List String)
    (fl : String → List String) (p : String)
    (hp : cfg.gnArgsFile = some p) (hmem : p ∉ fs) :
    buildGnArgs cfg isWin fs fl = computedGnArgs cfg isWin ∧
    (overrideStep cfg.gnArgsFile fs fl).2 = [] := by
  constructor
  · simp only [buildGnArgs, overrideStep, hp]
    rw [if_neg (fun hc => hmem hc.2)]
    simp
  · simp only [overrideStep, hp]
    rw [if_neg (fun hc => hmem hc.2)]

theorem c6_witness :
    buildGnArgs v8CfgOverride false [] (fun _ => ["z=1"]) =
      computedGnArgs v8CfgOverride false ∧
    (overrideStep v8CfgOverride.gnArgsFile [] (fun _ => ["z=1"])).2 = [] :=
  c6_missing_override_silent v8CfgOverride false [] (fun _ => ["z=1"]) "extra.gn"
    (by decide) (by decide)

/-- Claim C7: the remote-alias reconciliation is non-fatal and leaves
exactly one `fork` alias.  Acting on the alias map: it always succeeds,
afterwards exactly one alias named `fork` exists and it maps to the
configured URL, and every other alias is untouched.  In the pipeline, a
nonzero probe result selects the `remote add` branch and a zero probe
result selects the `remote set-url` branch — neither aborts from the
probe itself. -/
theorem c7_fork_reconciliation :
    (∀ rs url, (rs.map Prod.fst).Nodup →
      ∃ rs', reconcileFork rs url = Except.ok rs' ∧
        (rs'.filter (fun q => q.1 == "fork")).length = 1 ∧
        remoteLookup rs' "fork" = some url ∧
        ∀ nm, nm ≠ "fork" → remoteLookup rs' nm = remoteLookup rs nm) ∧
    (∀ w url st k, w st.trace.length = CmdRes.exit (k + 1) →
      forkReconcile w url st = v8RunCommand w V8Stage.forkIntegration
        ["git", "remote", "add", "fork", url]
        { st with trace := st.trace ++
          [(V8Stage.forkProbe, ["git", "remote", "get-url", "fork"])] }) ∧
    (∀ w url st, w st.trace.length = CmdRes.exit 0 →
      forkReconcile w url st = v8RunCommand w V8Stage.forkIntegration
        ["git", "remote", "set-url", "fork", url]
        { st with trace := st.trace ++
          [(V8Stage.forkProbe, ["git", "remote", "get-url", "fork"])] }) := by
  refine ⟨?_, ?_, ?_⟩
  · intro rs url hnd
    cases hlk : remoteLookup rs "fork" with
    | some u =>
        refine ⟨rs.map (fun p => if p.1 == "fork" then ("fork", url) else p), ?_, ?_, ?_, ?_⟩
        · simp only [reconcileFork, hlk, gitRemoteSetUrl]
          rw [if_pos (by simp [hlk])]
        · rw [setUrl_filter_length]
          exact remoteLookup_some_filter rs "fork" u hnd hlk
        · exact setUrl_lookup_self rs "fork" url u hlk
        · intro nm hnm
          exact setUrl_lookup_other rs "fork" url nm hnm
    | none =>
        refine ⟨rs ++ [("fork", url)], ?_, ?_, ?_, ?_⟩
        · simp only [reconcileFork, hlk, gitRemoteAdd]
          rw [if_neg (by simp [hlk])]
        · rw [List.filter_append, remoteLookup_none_filter rs "fork" hlk]
          simp
        · exact append_lookup_self rs "fork" url hlk
        · intro nm hnm
          exact append_lookup_other rs "fork" url nm hnm
  · intro w url st k h
    simp only [forkReconcile, launch]
    rw [h]
  · intro w url st h
    simp only [forkReconcile, launch]
    rw [h]

theorem c7_witness :
    forkReconcile (fun _ => CmdRes.exit 2) "u" (initSt [] []) =
      v8RunCommand (fun _ => CmdRes.exit 2) V8Stage.forkIntegration
        ["git", "remote", "add", "fork", "u"]
        { (initSt [] [] : St V8Stage) with trace :=
          ([] : List (V8Stage × List String)) ++
            [(V8Stage.forkProbe, ["git", "remote", "get-url", "fork"])] } :=
  c7_fork_reconciliation.2.1 (fun _ => CmdRes.exit 2) "u" (initSt [] []) 1 (by decide)

/-- Claim C9: link mode `static` puts `is_component_build=false` and
`v8_monolithic=true` into the composed arguments and makes the compile
stage target `v8_monolithic`; link mode `dll` yields the inverse pair
and target `v8`; every Ninja invocation of the pipeline names exactly
the target the link mode determines. -/
theorem c9_link_mode_pair_and_target (cfg : V8Config) (isWin : Bool)
    (fs : List String) (fl : String → List String) :
    (cfg.buildType = BuildType.static →
      "is_component_build=false" ∈ buildGnArgs cfg isWin fs fl ∧
      "v8_monolithic=true" ∈ buildGnArgs cfg isWin fs fl ∧
      buildTarget cfg = "v8_monolithic") ∧
    (cfg.buildType = BuildType.dll →
      "is_component_build=true" ∈ buildGnArgs cfg isWin fs fl ∧
      "v8_monolithic=false" ∈ buildGnArgs cfg isWin fs fl ∧
      buildTarget cfg = "v8") ∧
    (∀ w ad env e, e ∈ (v8Main w cfg isWin ad fl (initSt fs env)).2.trace →
      e.1 = V8Stage.ninjaBuild →
      e.2 = ["ninja", "-C", outputPath cfg, buildTarget cfg]) := by
  refine ⟨?_, ?_, ?_⟩
  · intro hst
    refine ⟨?_, ?_, by simp [buildTarget, hst]⟩ <;>
      · simp only [buildGnArgs, computedGnArgs, hst]
        simp
  · intro hst
    refine ⟨?_, ?_, by simp [buildTarget, hst]⟩ <;>
      · simp only [buildGnArgs, computedGnArgs, hst]
        simp
  · intro w ad env e he h1
    have hfin := v8Main_run w cfg isWin ad fl fs env _ rfl
    have hall := hfin.1 e he
    obtain ⟨es, ec⟩ := e
    simp only at h1
    subst h1
    simpa [v8Allowed] using hall

theorem c9_witness :
    "is_component_build=false" ∈ buildGnArgs v8CfgDefault false [] (fun _ => []) ∧
    "v8_monolithic=true" ∈ buildGnArgs v8CfgDefault false [] (fun _ => []) ∧
    buildTarget v8CfgDefault = "v8_monolithic" :=
  (c9_link_mode_pair_and_target v8CfgDefault false [] (fun _ => [])).1 rfl

/-- Claim C10: the `--no-custom-cxx` flag is parsed but never consulted:
flipping it changes neither the full pipeline run (exit code, state,
trace) nor the composed arguments nor the build target. -/
theorem c10_no_custom_cxx_ignored (w : World) (cfg : V8Config) (win ad : Bool)
    (fl : String → List String) (st0 : St V8Stage) (fs : List String) (b : Bool) :
    v8Main w { cfg with noCustomCxx := b } win ad fl st0 = v8Main w cfg win ad fl st0 ∧
    buildGnArgs { cfg with noCustomCxx := b } win fs fl = buildGnArgs cfg win fs fl ∧
    buildTarget { cfg with noCustomCxx := b } = buildTarget cfg := by
  cases cfg
  exact ⟨rfl, rfl, rfl⟩

/-- Claim C1 counterexample: in the V8 pipeline, a run whose first
stage command fails exits nonzero with the workspace root still present
— no fatal path of `v8_workspace.py` removes the workspace. -/
theorem c1_counterexample :
    (v8Main (fun _ => CmdRes.exit 3) v8CfgDefault false true (fun _ => [])
      (initSt [] [("PATH", "/usr/bin")])).1 ≠ 0 ∧
    "v8_build" ∈ (v8Main (fun _ => CmdRes.exit 3) v8CfgDefault false true (fun _ => [])
      (initSt [] [("PATH", "/usr/bin")])).2.fs := by
  decide

/-- Claim C1 as amended: the all-or-nothing cleanup holds for the
DevTools frontend pipeline only.  There, any failing run exits nonzero
with the workspace root and everything under it removed, and a
successful run leaves the workspace root in place — the two terminal
states.  The V8 pipeline, by contrast, exits on stage failure without
removing the workspace (see the counterexample). -/
theorem c1_amended_two_terminal_states (w : World) (ws : String) (win : Bool)
    (fs : List String) (env : List (String × String)) :
    ((cdpMain w ws win (initSt fs env)).1 ≠ 0 →
      ∀ p ∈ (cdpMain w ws win (initSt fs env)).2.fs,
        ¬ (p = ws) ∧ strStarts (ws ++ "/") p = false) ∧
    ((cdpMain w ws win (initSt fs env)).1 = 0 →
      ws ∈ (cdpMain w ws win (initSt fs env)).2.fs) := by
  obtain ⟨-, -, -, hok, herr⟩ := cdpMain_run w ws win fs env _ rfl
  exact ⟨fun h0 => (herr h0).2, hok⟩

theorem c1_witness :
    "ws" ∉ (cdpMain (fun _ => CmdRes.exit 1) "ws" false
      (initSt ["other"] [("PATH", "/usr/bin")])).2.fs := by
  intro hmem
  exact ((c1_amended_two_terminal_states (fun _ => CmdRes.exit 1) "ws" false
    ["other"] [("PATH", "/usr/bin")]).1 (by decide) "ws" hmem).1 rfl

/-- Claim C2 counterexample: the pipelines mutate the process-global
environment map in place: after a V8 run that gets past the depot_tools
stage, the global environment no longer equals the original one (PATH
has been rewritten). -/
theorem c2_counterexample :
    (v8Main (fun n => if n == 0 then CmdRes.exit 0 else CmdRes.exit 5) v8CfgDefault
      false true (fun _ => []) (initSt [] [("PATH", "/usr/bin")])).2.env ≠
      [("PATH", "/usr/bin")] := by
  decide

/-- Claim C2 as amended: the environment is composed by mutating the
global map in place, exactly once: PATH becomes the depot_tools
directory prepended (with the platform path separator) to the old PATH,
on Windows DEPOT_TOOLS_WIN_TOOLCHAIN is set to "0", every other
variable is untouched; and after any run of either pipeline the global
environment is either the original (failure before composition) or the
composed one. -/
theorem c2_env_mutation :
    (∀ env d win, envGet (composeEnv env d win) "PATH" =
        some (d ++ pathSep win ++ (envGet env "PATH").getD "") ∧
      (win = true → envGet (composeEnv env d win) "DEPOT_TOOLS_WIN_TOOLCHAIN" = some "0") ∧
      (∀ k, k ≠ "PATH" → k ≠ "DEPOT_TOOLS_WIN_TOOLCHAIN" →
        envGet (composeEnv env d win) k = envGet env k)) ∧
    (∀ w cfg win ad fl fs env,
      (v8Main w cfg win ad fl (initSt fs env)).2.env = env ∨
      (v8Main w cfg win ad fl (initSt fs env)).2.env =
        composeEnv env (cfg.workspace ++ "/depot_tools") win) ∧
    (∀ w ws win fs env,
      (cdpMain w ws win (initSt fs env)).2.env = env ∨
      (cdpMain w ws win (initSt fs env)).2.env = composeEnv env (ws ++ "/depot_tools") win) := by
  refine ⟨?_, ?_, ?_⟩
  · intro env d win
    refine ⟨?_, ?_, ?_⟩
    · cases win with
      | false =>
          simp only [composeEnv, Bool.false_eq_true, if_neg, if_false]
          exact envGet_envSet_self env "PATH" _
      | true =>
          simp only [composeEnv, if_pos]
          rw [envGet_envSet_ne _ _ _ _ (by decide)]
          exact envGet_envSet_self env "PATH" _
    · intro hwin
      subst hwin
      simp only [composeEnv, if_pos]
      exact envGet_envSet_self _ "DEPOT_TOOLS_WIN_TOOLCHAIN" "0"
    · intro k hk1 hk2
      cases win with
      | false =>
          simp only [composeEnv, Bool.false_eq_true, if_neg, if_false]
          exact envGet_envSet_ne env "PATH" _ k hk1
      | true =>
          simp only [composeEnv, if_pos]
          rw [envGet_envSet_ne _ "DEPOT_TOOLS_WIN_TOOLCHAIN" _ k hk2]
          exact envGet_envSet_ne env "PATH" _ k hk1
  · intro w cfg win ad fl fs env
    exact (v8Main_run w cfg win ad fl fs env _ rfl).2.1
  · intro w ws win fs env
    exact (cdpMain_run w ws win fs env _ rfl).2.1

theorem c2_witness :
    envGet (composeEnv [("PATH", "/usr/bin"), ("HOME", "/root")]
      "v8_build/depot_tools" true) "HOME" = some "/root" :=
  (c2_env_mutation.1 [("PATH", "/usr/bin"), ("HOME", "/root")]
    "v8_build/depot_tools" true).2.2 "HOME" (by decide) (by decide)

/-- Claim C4: a stage whose idempotency marker already exists before the
run launches none of its commands: with the depot_tools directory (resp.
the V8 source directory, the DevTools frontend checkout) already
present, the run's trace contains no launch attributed to the
corresponding stage, in either pipeline. -/
theorem c4_idempotent_marker_skip :
    (∀ w cfg win ad fl fs env, (cfg.workspace ++ "/depot_tools") ∈ fs →
      ((v8Main w cfg win ad fl (initSt fs env)).2.trace.filter
        (fun e => e.1 == V8Stage.cloneDepot)) = []) ∧
    (∀ w cfg win ad fl fs env, (cfg.workspace ++ "/v8") ∈ fs →
      ((v8Main w cfg win ad fl (initSt fs env)).2.trace.filter
        (fun e => e.1 == V8Stage.fetchV8)) = []) ∧
    (∀ w ws win fs env, (ws ++ "/depot_tools") ∈ fs →
      ((cdpMain w ws win (initSt fs env)).2.trace.filter
        (fun e => e.1 == CdpStage.cloneDepot)) = []) ∧
    (∀ w ws win fs env, (ws ++ "/devtools" ++ "/devtools-frontend") ∈ fs →
      ((cdpMain w ws win (initSt fs env)).2.trace.filter
        (fun e => e.1 == CdpStage.fetchFrontend)) = []) := by
  refine ⟨?_, ?_, ?_, ?_⟩
  · intro w cfg win ad fl fs env hmark
    rw [List.filter_eq_nil_iff]
    intro e he
    have hall := (v8Main_run w cfg win ad fl fs env _ rfl).1 e he
    obtain ⟨es, ec⟩ := e
    intro hbeq
    have hes : es = V8Stage.cloneDepot := by simpa using hbeq
    subst hes
    simp only [v8Allowed] at hall
    exact hall.2 hmark
  · intro w cfg win ad fl fs env hmark
    rw [List.filter_eq_nil_iff]
    intro e he
    have hall := (v8Main_run w cfg win ad fl fs env _ rfl).1 e he
    obtain ⟨es, ec⟩ := e
    intro hbeq
    have hes : es = V8Stage.fetchV8 := by simpa using hbeq
    subst hes
    simp only [v8Allowed] at hall
    exact hall.2 hmark
  · intro w ws win fs env hmark
    rw [List.filter_eq_nil_iff]
    intro e he
    have hall := (cdpMain_run w ws win fs env _ rfl).1 e he
    obtain ⟨es, ec⟩ := e
    intro hbeq
    have hes : es = CdpStage.cloneDepot := by simpa using hbeq
    subst hes
    simp only [cdpAllowed] at hall
    exact hall.2 hmark
  · intro w ws win fs env hmark
    rw [List.filter_eq_nil_iff]
    intro e he
    have hall := (cdpMain_run w ws win fs env _ rfl).1 e he
    obtain ⟨es, ec⟩ := e
    intro hbeq
    have hes : es = CdpStage.fetchFrontend := by simpa using hbeq
    subst hes
    simp only [cdpAllowed] at hall
    exact hall.2 hmark

theorem c4_witness :
    ((cdpMain (fun _ => CmdRes.exit 0) "ws" false
      (initSt ["ws/depot_tools"] [("PATH", "/usr/bin")])).2.trace.filter
        (fun e => e.1 == CdpStage.cloneDepot)) = [] :=
  c4_idempotent_marker_skip.2.2.1 (fun _ => CmdRes.exit 0) "ws" false
    ["ws/depot_tools"] [("PATH", "/usr/bin")] (by decide)

/-- Claim C8 counterexample: the DevTools pipeline exits with the
generic status 1 even when the failing command's own exit code (42
here, available in the raised CalledProcessError) could have been
propagated — refuting "equal to the failing external command's own exit
code when that code is available". -/
theorem c8_counterexample :
    (cdpMain cdpW42 "ws" false (initSt cdpFs0 [("PATH", "/usr/bin")])).1 = 1 ∧
    cdpW42 ((cdpMain cdpW42 "ws" false
      (initSt cdpFs0 [("PATH", "/usr/bin")])).2.trace.length - 1) = CmdRes.exit 42 := by
  decide

/-- Claim C8 as amended: both pipelines exit 0 exactly when every stage
succeeded (on Windows the V8 script additionally requires admin
privileges).  On failure the V8 pipeline performs no cleanup (the
filesystem only ever gains the workspace directory) and exits with the
failing command's own exit code when that launch was a `run_command`
stage, or the generic 1 when the executable was missing or the failing
launch was the build-file-generation step; the DevTools pipeline always
exits with the generic 1, even when the failing code is available, and
only after the workspace has been removed. -/
theorem c8_exit_codes :
    (∀ w cfg win ad fl fs env,
      ((v8Main w cfg win ad fl (initSt fs env)).1 = 0 ↔
        ((win = true → ad = true) ∧
          TraceOkL v8P w (v8Main w cfg win ad fl (initSt fs env)).2.trace)) ∧
      ((v8Main w cfg win ad fl (initSt fs env)).1 ≠ 0 →
        ∀ e, (v8Main w cfg win ad fl (initSt fs env)).2.trace.getLast? = some e →
          ((e.1 ≠ V8Stage.gnGen → ∀ k,
              w ((v8Main w cfg win ad fl (initSt fs env)).2.trace.length - 1) =
                CmdRes.exit (k + 1) →
              (v8Main w cfg win ad fl (initSt fs env)).1 = k + 1) ∧
           (w ((v8Main w cfg win ad fl (initSt fs env)).2.trace.length - 1) =
              CmdRes.notFound →
              (v8Main w cfg win ad fl (initSt fs env)).1 = 1) ∧
           (e.1 = V8Stage.gnGen → (v8Main w cfg win ad fl (initSt fs env)).1 = 1))) ∧
      ((v8Main w cfg win ad fl (initSt fs env)).2.fs = fs ∨
        (v8Main w cfg win ad fl (initSt fs env)).2.fs = fs ++ [cfg.workspace])) ∧
    (∀ w ws win fs env,
      ((cdpMain w ws win (initSt fs env)).1 = 0 ↔
        TraceOkL cdpP w (cdpMain w ws win (initSt fs env)).2.trace) ∧
      ((cdpMain w ws win (initSt fs env)).1 ≠ 0 →
        (cdpMain w ws win (initSt fs env)).1 = 1 ∧
        ∀ p ∈ (cdpMain w ws win (initSt fs env)).2.fs,
          ¬ (p = ws) ∧ strStarts (ws ++ "/") p = false)) := by
  constructor
  · intro w cfg win ad fl fs env
    have hfin := v8Main_run w cfg win ad fl fs env _ rfl
    exact ⟨hfin.2.2.2.1, hfin.2.2.2.2, hfin.2.2.1⟩
  · intro w ws win fs env
    have hfin := cdpMain_run w ws win fs env _ rfl
    exact ⟨hfin.2.2.1, hfin.2.2.2.2⟩

theorem c8_witness :
    (v8Main v8W42 v8CfgDefault false true (fun _ => [])
      (initSt [] [("PATH", "/usr/bin")])).1 = 42 ∧
    (cdpMain cdpW42 "ws" false (initSt cdpFs0 [("PATH", "/usr/bin")])).1 = 1 := by
  constructor
  · exact ((c8_exit_codes.1 v8W42 v8CfgDefault false true (fun _ => [])
      [] [("PATH", "/usr/bin")]).2.1 (by decide)
      (V8Stage.bootstrapGclient, ["gclient"]) (by decide)).1 (by decide) 41 (by decide)
  · exact ((c8_exit_codes.2 cdpW42 "ws" false cdpFs0 [("PATH", "/usr/bin")]).2 (by decide)).1

end APUI
